import Mathlib

/-!
Verification development for the Taiga MCP gateway (`app.py`).

The development shallowly embeds the parts of the gateway that carry the
correctness-relevant behavior: the field projector `_slice`, the idempotency
store `_IdempotencyStore` with TTL expiry, the idempotency cache-key
derivation (`_make_idempotency_cache_key`, including a full executable
SHA-256), the status resolvers, and the update/create tool handlers
`taiga_stories_update`, `taiga_tasks_update` and `taiga_tasks_create`.

Remote calls are modelled by an environment of response functions; each
handler runs in a small writer/state monad `M` that records the sequence of
remote calls made, threads the idempotency-store state, and propagates
Python exceptions as `Except` errors.
-/

namespace TaigaMCP

/-- JSON-like values appearing in records exchanged with the remote API:
Python ints, strings, booleans, None, lists and dicts. -/
inductive Value where
  | vInt (n : Int)
  | vStr (s : String)
  | vBool (b : Bool)
  | vNull
  | vList (xs : List Value)
  | vDict (fields : List (String × Value))

/-- A record: a Python dict with string keys, modelled as an
insertion-ordered association list (Python dicts preserve insertion order
and have unique keys; lookups below always take the first binding). -/
abbrev Rec := List (String × Value)

/-- Python `d.get(k)`: the first binding of `k`, if any. -/
def alookup {β : Type} (l : List (String × β)) (k : String) : Option β :=
  (l.find? (fun p => p.1 = k)).map (fun p => p.2)

/-- Python `k in d`. -/
def acontains {β : Type} (l : List (String × β)) (k : String) : Bool :=
  l.any (fun p => p.1 = k)

/-- Python `d[k] = v`: replace the binding in place if the key is present,
otherwise append it (insertion-order semantics of Python dicts). -/
def aset {β : Type} (l : List (String × β)) (k : String) (v : β) : List (String × β) :=
  if acontains l k then l.map (fun p => if p.1 = k then (k, v) else p) else l ++ [(k, v)]

/-- Python `int(s)` on a string: optional sign and digits.  (CPython also
tolerates surrounding whitespace and inner underscores; the handlers under
verification only ever meet plain decimal strings here.) -/
def pyIntOfString (s : String) : Option Int :=
  s.toInt?

/-- Python `int(x)` on a record value; `none` models the `TypeError` /
`ValueError` raised for unconvertible values (None, lists, dicts). -/
def pyInt : Value → Option Int
  | .vInt n => some n
  | .vBool b => some (if b then 1 else 0)
  | .vStr s => pyIntOfString s
  | _ => none

mutual

/-- Python `str(x)` as used by f-string interpolation.  Exact for the scalar
values the handlers interpolate (ints, strings, booleans, None); container
rendering is abbreviated (Python would use `repr` on the elements), which no
handler message under verification exercises. -/
def pyStr : Value → String
  | .vInt n => toString n
  | .vStr s => s
  | .vBool b => if b then "True" else "False"
  | .vNull => "None"
  | .vList xs => "[" ++ pyStrJoin xs ++ "]"
  | .vDict fs => "\x7b" ++ pyStrJoinFields fs ++ "\x7d"

def pyStrJoin : List Value → String
  | [] => ""
  | [x] => pyStr x
  | x :: y :: xs => pyStr x ++ ", " ++ pyStrJoin (y :: xs)

def pyStrJoinFields : List (String × Value) → String
  | [] => ""
  | [(k, v)] => k ++ ": " ++ pyStr v
  | (k, v) :: q :: xs => k ++ ": " ++ pyStr v ++ ", " ++ pyStrJoinFields (q :: xs)

end

/-- Rendering of `d.get(k)` inside an f-string: a missing key renders as
`None`, exactly like an explicit `None` value. -/
def pyStrOpt : Option Value → String
  | none => "None"
  | some v => pyStr v

/-- Python exceptions raised by the code under verification:
`ValueError(msg)` and `TaigaAPIError(msg, status_code=...)`. -/
inductive PyErr where
  | valueError (msg : String)
  | taigaAPIError (status_code : Option Int) (msg : String)
deriving DecidableEq

/-- The tri-state of an optional tool parameter: the UNSET sentinel
(parameter not mentioned), explicit `None`, or a concrete value. -/
inductive Upd (α : Type) where
  | unset
  | null
  | given (a : α)

/-- Python `x is not UNSET`. -/
def Upd.isSet {α : Type} : Upd α → Bool
  | .unset => false
  | _ => true

/-- The value a non-UNSET parameter contributes to a payload: explicit
`None` becomes JSON null, a concrete value is injected by `f`. -/
def Upd.toVal {α : Type} (f : α → Value) : Upd α → Option Value
  | .unset => none
  | .null => some .vNull
  | .given a => some (f a)

/-- A `status` argument that is not `None`: Python `int | str`. -/
inductive StatusV where
  | sInt (n : Int)
  | sStr (s : String)

/-! ## The idempotency store (`_IdempotencyStore`)

Wall-clock time (`time.time()`) is modelled as an explicit rational-number
argument to `get`/`store`; the value type is a parameter so that the same
store can be instantiated with pure records (handler-level reasoning) and
with heap objects (aliasing reasoning). -/

/-- State of `_IdempotencyStore`: the TTL in seconds and the entry mapping
`key -> (expires_at, value)`. -/
structure _IdempotencyStore (α : Type) where
  ttl_seconds : Int
  entries : List (String × Rat × α)

/-- A store as built by `_IdempotencyStore()` with the default
`ttl_seconds=24 * 60 * 60` and no entries. -/
def _IdempotencyStore.init (α : Type) : _IdempotencyStore α :=
  { ttl_seconds := 24 * 60 * 60, entries := [] }

/-- The `_purge_expired` step: drop every entry with `expires_at <= now`. -/
def _IdempotencyStore.purgeExpired {α : Type} (s : _IdempotencyStore α) (now : Rat) :
    _IdempotencyStore α :=
  { s with entries := s.entries.filter (fun e => now < e.2.1) }

/-- The `get` method: purge expired entries, then look the key up; a hit
returns a copy (`dict(value)`) of the stored value — by-value in this model,
matching the fact that the stored dict is never aliased by callers. -/
def _IdempotencyStore.get {α : Type} (s : _IdempotencyStore α) (key : String) (now : Rat) :
    Option α × _IdempotencyStore α :=
  let s' := s.purgeExpired now
  match alookup s'.entries key with
  | none => (none, s')
  | some e => (some e.2, s')

/-- The `store` method: purge expired entries, then upsert
`key -> (now + ttl, dict(value))`. -/
def _IdempotencyStore.store {α : Type} (s : _IdempotencyStore α) (key : String) (value : α)
    (now : Rat) : _IdempotencyStore α :=
  let s' := s.purgeExpired now
  { s' with entries := aset s'.entries key (now + (s.ttl_seconds : Rat), value) }

/-! ## SHA-256 (for `_make_idempotency_cache_key`) -/

/-- Truncation to a 32-bit word. -/
def w32 (x : Nat) : Nat := x % 4294967296

/-- Right rotation of a 32-bit word. -/
def rotr32 (n x : Nat) : Nat := w32 ((x >>> n) ||| (x <<< (32 - n)))

def sha256BigSigma0 (x : Nat) : Nat := (rotr32 2 x) ^^^ (rotr32 13 x) ^^^ (rotr32 22 x)

def sha256BigSigma1 (x : Nat) : Nat := (rotr32 6 x) ^^^ (rotr32 11 x) ^^^ (rotr32 25 x)

def sha256SmallSigma0 (x : Nat) : Nat := (rotr32 7 x) ^^^ (rotr32 18 x) ^^^ (x >>> 3)

def sha256SmallSigma1 (x : Nat) : Nat := (rotr32 17 x) ^^^ (rotr32 19 x) ^^^ (x >>> 10)

def sha256K : List Nat :=
  [1116352408, 1899447441, 3049323471, 3921009573, 961987163, 1508970993,
   2453635748, 2870763221, 3624381080, 310598401, 607225278, 1426881987,
   1925078388, 2162078206, 2614888103, 3248222580, 3835390401, 4022224774,
   264347078, 604807628, 770255983, 1249150122, 1555081692, 1996064986,
   2554220882, 2821834349, 2952996808, 3210313671, 3336571891, 3584528711,
   113926993, 338241895, 666307205, 773529912, 1294757372, 1396182291,
   1695183700, 1986661051, 2177026350, 2456956037, 2730485921, 2820302411,
   3259730800, 3345764771, 3516065817, 3600352804, 4094571909, 275423344,
   430227734, 506948616, 659060556, 883997877, 958139571, 1322822218,
   1537002063, 1747873779, 1955562222, 2024104815, 2227730452, 2361852424,
   2428436474, 2756734187, 3204031479, 3329325298]

def sha256InitState : List Nat :=
  [1779033703, 3144134277, 1013904242, 2773480762, 1359893119, 2600822924,
   528734635, 1541459225]

/-- Group a byte list into big-endian 32-bit words. -/
def bytesToWords : List Nat → List Nat
  | b0 :: b1 :: b2 :: b3 :: rest => (((b0 * 256 + b1) * 256 + b2) * 256 + b3) :: bytesToWords rest
  | _ => []

/-- Big-endian 8-byte encoding of a natural number. -/
def be64 (n : Nat) : List Nat :=
  ((List.range 8).reverse).map (fun i => (n >>> (8 * i)) % 256)

/-- SHA-256 padding: append 0x80, zero bytes up to 56 mod 64, then the
64-bit big-endian bit length. -/
def sha256Pad (msg : List Nat) : List Nat :=
  let r := (msg.length + 1) % 64
  let zeros := if r ≤ 56 then 56 - r else 120 - r
  msg ++ [0x80] ++ List.replicate zeros 0 ++ be64 (msg.length * 8)

/-- Split a byte list into 64-byte blocks (the padded input always has a
length that is a multiple of 64). -/
def chunks64 (l : List Nat) : List (List Nat) :=
  (List.range ((l.length + 63) / 64)).map (fun i => (l.drop (64 * i)).take 64)

/-- Extend the 16 message words to the 64-entry message schedule. -/
def sha256Schedule (ws : List Nat) : List Nat :=
  (List.range 48).foldl
    (fun acc _ =>
      let i := acc.length
      let s0 := sha256SmallSigma0 (acc.getD (i - 15) 0)
      let s1 := sha256SmallSigma1 (acc.getD (i - 2) 0)
      acc ++ [w32 (acc.getD (i - 16) 0 + s0 + acc.getD (i - 7) 0 + s1)])
    ws

/-- One SHA-256 compression round. -/
def sha256Round (st : List Nat) (kw : Nat × Nat) : List Nat :=
  match st with
  | [a, b, c, d, e, f, g, h] =>
    let S1 := sha256BigSigma1 e
    let ch := (e &&& f) ^^^ ((4294967295 - e) &&& g)
    let temp1 := w32 (h + S1 + ch + kw.1 + kw.2)
    let S0 := sha256BigSigma0 a
    let maj := (a &&& b) ^^^ (a &&& c) ^^^ (b &&& c)
    let temp2 := w32 (S0 + maj)
    [w32 (temp1 + temp2), a, b, c, w32 (d + temp1), e, f, g]
  | other => other

/-- Compress one 64-byte block into the running state. -/
def sha256Compress (st : List Nat) (block : List Nat) : List Nat :=
  let ws := sha256Schedule (bytesToWords block)
  let t := (sha256K.zip ws).foldl sha256Round st
  (st.zip t).map (fun p => w32 (p.1 + p.2))

/-- SHA-256 of a byte string, as the list of eight 32-bit state words. -/
def sha256Words (msg : List Nat) : List Nat :=
  (chunks64 (sha256Pad msg)).foldl sha256Compress sha256InitState

def hexDigitChar (n : Nat) : Char :=
  if n < 10 then Char.ofNat (48 + n) else Char.ofNat (87 + n)

/-- Lowercase hexadecimal rendering of a 32-bit word (8 digits). -/
def hex32 (w : Nat) : List Char :=
  ((List.range 8).reverse).map (fun i => hexDigitChar ((w >>> (4 * i)) % 16))

/-- Python `hashlib.sha256(b).hexdigest()`. -/
def sha256Hex (msg : List Nat) : String :=
  String.mk (((sha256Words msg).map hex32).flatten)

/-- UTF-8 encoding of one Unicode code point. -/
def utf8Char (c : Nat) : List Nat :=
  if c < 128 then [c]
  else if c < 2048 then [192 ||| (c >>> 6), 128 ||| (c &&& 63)]
  else if c < 65536 then
    [224 ||| (c >>> 12), 128 ||| ((c >>> 6) &&& 63), 128 ||| (c &&& 63)]
  else
    [240 ||| (c >>> 18), 128 ||| ((c >>> 12) &&& 63), 128 ||| ((c >>> 6) &&& 63),
     128 ||| (c &&& 63)]

/-- Python `s.encode("utf-8")` as a byte list. -/
def strBytes (s : String) : List Nat :=
  (s.data.map (fun c => utf8Char c.toNat)).flatten

/-- The cache-key derivation
`f"(raw_key):(sha256(f'(user_story_id):(subject)').hexdigest())"` from
`app.py`. -/
def _make_idempotency_cache_key (raw_key : String) (user_story_id : Int) (subject : String) :
    String :=
  let digest := sha256Hex (strBytes (toString user_story_id ++ ":" ++ subject))
  raw_key ++ ":" ++ digest

/-! ## Date validation (`_validate_due_date`) -/

def isLeapYear (y : Int) : Bool :=
  y % 4 == 0 && (y % 100 != 0 || y % 400 == 0)

def daysInMonth (y m : Int) : Int :=
  if m = 2 then (if isLeapYear y then 29 else 28)
  else if m = 4 ∨ m = 6 ∨ m = 9 ∨ m = 11 then 30
  else 31

/-- Parse a canonical `YYYY-MM-DD` calendar date, checking month/day ranges
and leap years, as `datetime.date.fromisoformat` does on its primary input
form.  (CPython 3.11+ additionally accepts other ISO-8601 spellings; the
claims under verification only exercise the canonical form, for which
`parsed.isoformat()` returns the input string unchanged.) -/
def parseIsoDate (s : String) : Option (Int × Int × Int) :=
  match s.data with
  | [y1, y2, y3, y4, h1, m1, m2, h2, d1, d2] =>
    if y1.isDigit && y2.isDigit && y3.isDigit && y4.isDigit && h1 = '-' &&
        m1.isDigit && m2.isDigit && h2 = '-' && d1.isDigit && d2.isDigit then
      let y : Int :=
        (1000 * (y1.toNat - 48) + 100 * (y2.toNat - 48) + 10 * (y3.toNat - 48) + (y4.toNat - 48) : Nat)
      let m : Int := (10 * (m1.toNat - 48) + (m2.toNat - 48) : Nat)
      let d : Int := (10 * (d1.toNat - 48) + (d2.toNat - 48) : Nat)
      if 1 ≤ y ∧ 1 ≤ m ∧ m ≤ 12 ∧ 1 ≤ d ∧ d ≤ daysInMonth y m then some (y, m, d) else none
    else none
  | _ => none

/-- The `_validate_due_date` helper: `None` passes through; a canonical ISO
date string is returned unchanged (`parsed.isoformat()`); anything else
raises `ValueError("due_date must be in YYYY-MM-DD format")`. -/
def _validate_due_date : Option String → Except PyErr (Option String)
  | none => .ok none
  | some s =>
    match parseIsoDate s with
    | some _ => .ok (some s)
    | none => .error (.valueError "due_date must be in YYYY-MM-DD format")

/-! ## The remote-call environment and effect monad

Each handler is a straight-line coroutine making remote calls through the
Taiga client.  A call is recorded in a trace; the environment maps the
position in the trace (the number of remote calls already made) and the
call arguments to the remote response, so that successive reads of the same
record may observe different data, as they can against the live API. -/

/-- One remote call made through the Taiga client, with its arguments. -/
inductive Call where
  | getUserStory (id : Int)
  | updateUserStory (id : Int) (payload : Rec)
  | listUserStoryStatuses (project_id : Int)
  | getTask (id : Int)
  | updateTask (id : Int) (payload : Rec)
  | listTaskStatuses (project_id : Int)
  | createTask (payload : Rec)

/-- Responses of the remote Taiga client.  The `Nat` argument is the number
of remote calls the handler has already made (so a re-fetch may return a
fresher record than the first fetch). -/
structure TaigaEnv where
  getUserStory : Nat → Int → Except PyErr Rec
  updateUserStory : Nat → Int → Rec → Except PyErr Rec
  listUserStoryStatuses : Nat → Int → Except PyErr (List Rec)
  getTask : Nat → Int → Except PyErr Rec
  updateTask : Nat → Int → Rec → Except PyErr Rec
  listTaskStatuses : Nat → Int → Except PyErr (List Rec)
  createTask : Nat → Rec → Except PyErr Rec

/-- The handler-level idempotency store (`_IDEMPOTENCY_STORE`). -/
abbrev Store := _IdempotencyStore Rec

/-- The handler effect monad: threads the idempotency store and the trace of
remote calls, and propagates raised Python exceptions. -/
def M (α : Type) : Type := Store → List Call → Except PyErr α × Store × List Call

def M.pureM {α : Type} (a : α) : M α := fun st tr => (.ok a, st, tr)

def M.bindM {α β : Type} (x : M α) (f : α → M β) : M β := fun st tr =>
  match x st tr with
  | (.ok a, st', tr') => f a st' tr'
  | (.error e, st', tr') => (.error e, st', tr')

instance : Monad M where
  pure := M.pureM
  bind := M.bindM

/-- Python `raise`. -/
def M.throw {α : Type} (e : PyErr) : M α := fun st tr => (.error e, st, tr)

/-- An awaited client call: the response is drawn from the environment at
the current trace position, and the call is appended to the trace (whether
it succeeds or raises). -/
def M.remote {α : Type} (c : Call) (resp : Nat → Except PyErr α) : M α :=
  fun st tr => (resp tr.length, st, tr ++ [c])

/-- `await _IDEMPOTENCY_STORE.get(key)` at wall-clock time `now`. -/
def M.storeGet (key : String) (now : Rat) : M (Option Rec) :=
  fun st tr =>
    let r := st.get key now
    (.ok r.1, r.2, tr)

/-- `await _IDEMPOTENCY_STORE.store(key, dict(value))` at time `now`. -/
def M.storePut (key : String) (value : Rec) (now : Rat) : M Unit :=
  fun st tr => (.ok (), st.store key value now, tr)

/-- Python `try: ... except TaigaAPIError as exc: ...`: only `TaigaAPIError`
is caught; any other exception propagates. -/
def M.catchTaiga {α : Type} (x : M α) (handle : Option Int → String → M α) : M α :=
  fun st tr =>
    match x st tr with
    | (.ok a, st', tr') => (.ok a, st', tr')
    | (.error (.taigaAPIError c m), st', tr') => handle c m st' tr'
    | (.error e, st', tr') => (.error e, st', tr')

/-! ## Status resolvers -/

/-- The loop guard `entry.get("name") == status or entry.get("slug") == status`
(a missing key or non-string value never equals the status string). -/
def statusEntryMatches (entry : Rec) (s : String) : Bool :=
  (match alookup entry "name" with | some (.vStr n) => n = s | _ => false) ||
  (match alookup entry "slug" with | some (.vStr sl) => sl = s | _ => false)

/-- Python `entry.get("id")` result, used as-is as a payload value:
a missing id means the resolver returns `None`. -/
def optV : Option Value → Value
  | none => .vNull
  | some v => v

/-- `_resolve_user_story_status_id`: `None` passes through, an int is
returned unchanged without a remote call, a string is looked up in the
project user-story status listing (first name-or-slug match wins) and
raises `TaigaAPIError` when nothing matches. -/
def _resolve_user_story_status_id (env : TaigaEnv) (project_id : Int)
    (status : Option StatusV) : M (Option Value) :=
  match status with
  | none => pure none
  | some (.sInt n) => pure (some (.vInt n))
  | some (.sStr s) => do
    let statuses ← M.remote (.listUserStoryStatuses project_id)
      (fun n => env.listUserStoryStatuses n project_id)
    match statuses.find? (fun e => statusEntryMatches e s) with
    | some entry => pure (alookup entry "id")
    | none => M.throw (.taigaAPIError none
        ("Status \x27" ++ s ++ "\x27 not found for project " ++ toString project_id))

/-- `_resolve_task_status_id`: like the user-story resolver but against the
task status listing and with the `Task status ...` message. -/
def _resolve_task_status_id (env : TaigaEnv) (project_id : Int)
    (status : Option StatusV) : M (Option Value) :=
  match status with
  | none => pure none
  | some (.sInt n) => pure (some (.vInt n))
  | some (.sStr s) => do
    let statuses ← M.remote (.listTaskStatuses project_id)
      (fun n => env.listTaskStatuses n project_id)
    match statuses.find? (fun e => statusEntryMatches e s) with
    | some entry => pure (alookup entry "id")
    | none => M.throw (.taigaAPIError none
        ("Task status \x27" ++ s ++ "\x27 not found for project " ++ toString project_id))

/-! ## The update and create handlers -/

/-- The f-string
`f"Conflict updating user story (user_story_id): latest version is (latest_version)"`. -/
def storyConflictMsg (user_story_id : Int) (latest_version : Option Value) : String :=
  ("Conflict updating user story " ++ toString user_story_id ++ ": latest version is ") ++
    pyStrOpt latest_version

/-- The f-string
`f"Conflict updating task (task_id): latest version is (latest_version)"`. -/
def taskConflictMsg (task_id : Int) (latest_version : Option Value) : String :=
  ("Conflict updating task " ++ toString task_id ++ ": latest version is ") ++
    pyStrOpt latest_version

/-- Include a field in a payload when the parameter is not UNSET. -/
def maybeSet (r : Rec) (k : String) (v? : Option Value) : Rec :=
  match v? with
  | none => r
  | some v => aset r k v

/-- The `tags` payload value: `[] if tags is None else tags`. -/
def tagsVal : Upd (List String) → Option Value
  | .unset => none
  | .null => some (.vList [])
  | .given ts => some (.vList (ts.map .vStr))

/-- Python `None` for a non-UNSET tri-state parameter. -/
def Upd.toOpt {α : Type} : Upd α → Option α
  | .unset => none
  | .null => none
  | .given a => some a

/-- The non-status fields of a story-update payload, in the assignment
order of the source (subject, description, tags, assigned_to, epic,
milestone, custom_attributes); UNSET fields are skipped. -/
def storyFieldPayload (subject description : Upd String) (tags : Upd (List String))
    (assigned_to epic_id milestone_id : Upd Int)
    (custom_attributes : Upd (List (String × Value))) : Rec :=
  maybeSet (maybeSet (maybeSet (maybeSet (maybeSet (maybeSet (maybeSet []
    "subject" (subject.toVal .vStr))
    "description" (description.toVal .vStr))
    "tags" (tagsVal tags))
    "assigned_to" (assigned_to.toVal .vInt))
    "epic" (epic_id.toVal .vInt))
    "milestone" (milestone_id.toVal .vInt))
    "custom_attributes" (custom_attributes.toVal .vDict)

/-- The `has_updates` flag of `taiga_stories_update`. -/
def storyHasUpdates (subject description : Upd String) (status : Upd StatusV)
    (tags : Upd (List String)) (assigned_to epic_id milestone_id : Upd Int)
    (custom_attributes : Upd (List (String × Value))) : Bool :=
  subject.isSet || description.isSet || tags.isSet || assigned_to.isSet ||
    epic_id.isSet || milestone_id.isSet || custom_attributes.isSet || status.isSet

/-- The version block of `taiga_stories_update` for an UNSET or None
`version` argument: `existing.get("version")` must be present, non-None and
convertible by `int(...)`. -/
def storyVersionValue (existing : Rec) : Except PyErr Int :=
  match alookup existing "version" with
  | none => .error (.taigaAPIError none "Unable to resolve version for story update")
  | some .vNull => .error (.taigaAPIError none "Unable to resolve version for story update")
  | some vv =>
    match pyInt vv with
    | none => .error (.taigaAPIError none "Unable to resolve version for story update")
    | some n => .ok n

/-- The version block of `taiga_tasks_update` for an UNSET or None
`version` argument. -/
def taskVersionValue (existing : Rec) : Except PyErr Int :=
  match alookup existing "version" with
  | none => .error (.taigaAPIError none "Unable to resolve version for task update")
  | some .vNull => .error (.taigaAPIError none "Unable to resolve version for task update")
  | some vv =>
    match pyInt vv with
    | none => .error (.taigaAPIError none "Unable to resolve version for task update")
    | some n => .ok n

/-- The submit step of `taiga_stories_update`: `client.update_user_story`
inside `try/except TaigaAPIError`, with the 409 re-fetch-and-rewrite. -/
def storySubmit (env : TaigaEnv) (user_story_id : Int) (payload2 : Rec) : M Rec :=
  M.catchTaiga
    (M.remote (.updateUserStory user_story_id payload2)
      (fun n => env.updateUserStory n user_story_id payload2))
    (fun code msg =>
      if code = some 409 then do
        let latest ← M.remote (.getUserStory user_story_id)
          (fun n => env.getUserStory n user_story_id)
        M.throw (.valueError (storyConflictMsg user_story_id (alookup latest "version")))
      else M.throw (.taigaAPIError code msg))

/-- The submit step of `taiga_tasks_update`: `client.update_task` inside
`try/except TaigaAPIError`, with the 409 re-fetch-and-rewrite. -/
def taskSubmit (env : TaigaEnv) (task_id : Int) (payload2 : Rec) : M Rec :=
  M.catchTaiga
    (M.remote (.updateTask task_id payload2)
      (fun n => env.updateTask n task_id payload2))
    (fun code msg =>
      if code = some 409 then do
        let latest ← M.remote (.getTask task_id) (fun n => env.getTask n task_id)
        M.throw (.valueError (taskConflictMsg task_id (alookup latest "version")))
      else M.throw (.taigaAPIError code msg))

/-- The `taiga.stories.update` tool handler. -/
def taiga_stories_update (env : TaigaEnv) (user_story_id : Int)
    (subject description : Upd String) (status : Upd StatusV)
    (tags : Upd (List String)) (assigned_to epic_id milestone_id : Upd Int)
    (custom_attributes : Upd (List (String × Value))) (version : Upd Int) : M Rec := do
  let existing ← M.remote (.getUserStory user_story_id)
    (fun n => env.getUserStory n user_story_id)
  match (alookup existing "project").bind pyInt with
  | none => M.throw (.taigaAPIError none "Unable to resolve project for story update")
  | some project_id => do
    let base := storyFieldPayload subject description tags assigned_to epic_id milestone_id
      custom_attributes
    let payload ← match status with
      | .unset => pure base
      | .null => pure (aset base "status" .vNull)
      | .given sv => do
        let sid ← _resolve_user_story_status_id env project_id (some sv)
        pure (aset base "status" (optV sid))
    if storyHasUpdates subject description status tags assigned_to epic_id milestone_id
        custom_attributes = true then do
      let payload2 ← match version with
        | .given v => pure (aset payload "version" (.vInt v))
        | _ =>
          match storyVersionValue existing with
          | .error e => M.throw e
          | .ok n => pure (aset payload "version" (.vInt n))
      storySubmit env user_story_id payload2
    else
      M.throw (.valueError "At least one field must be provided to update the story")

/-- The non-status, non-due-date fields of a task-update payload, in source
assignment order (subject, description, assigned_to, tags). -/
def taskFieldPayload (subject description : Upd String) (assigned_to : Upd Int)
    (tags : Upd (List String)) : Rec :=
  maybeSet (maybeSet (maybeSet (maybeSet []
    "subject" (subject.toVal .vStr))
    "description" (description.toVal .vStr))
    "assigned_to" (assigned_to.toVal .vInt))
    "tags" (tagsVal tags)

/-- The `has_updates` flag of `taiga_tasks_update`. -/
def taskHasUpdates (subject description : Upd String) (assigned_to : Upd Int)
    (status : Upd StatusV) (tags : Upd (List String)) (due_date : Upd String) : Bool :=
  subject.isSet || description.isSet || assigned_to.isSet || tags.isSet ||
    due_date.isSet || status.isSet

/-- The `due_date` payload value for a non-UNSET parameter:
`_validate_due_date` may raise; `None` comes back as JSON null. -/
def dueDateVal (dd : Upd String) : Except PyErr Value :=
  match _validate_due_date dd.toOpt with
  | .ok (some d) => .ok (.vStr d)
  | .ok none => .ok .vNull
  | .error e => .error e

/-- The `taiga.tasks.update` tool handler. -/
def taiga_tasks_update (env : TaigaEnv) (task_id : Int)
    (subject description : Upd String) (assigned_to : Upd Int) (status : Upd StatusV)
    (tags : Upd (List String)) (due_date : Upd String) (version : Upd Int) : M Rec := do
  let existing ← M.remote (.getTask task_id) (fun n => env.getTask n task_id)
  match (alookup existing "project").bind pyInt with
  | none => M.throw (.taigaAPIError none "Unable to resolve project for task update")
  | some project_id => do
    let base0 := taskFieldPayload subject description assigned_to tags
    let base ← match due_date with
      | .unset => pure base0
      | dd =>
        match dueDateVal dd with
        | .ok v => pure (aset base0 "due_date" v)
        | .error e => M.throw e
    let payload ← match status with
      | .unset => pure base
      | .null => pure (aset base "status" .vNull)
      | .given sv => do
        let sid ← _resolve_task_status_id env project_id (some sv)
        pure (aset base "status" (optV sid))
    if taskHasUpdates subject description assigned_to status tags due_date = true then do
      let payload2 ← match version with
        | .given v => pure (aset payload "version" (.vInt v))
        | _ =>
          match taskVersionValue existing with
          | .error e => M.throw e
          | .ok n => pure (aset payload "version" (.vInt n))
      taskSubmit env task_id payload2
    else
      M.throw (.valueError "At least one field must be provided to update the task")

/-- The fixed leading fields of a task-create payload. -/
def taskCreateBasePayload (project_id user_story_id : Int) (subject : String) : Rec :=
  aset (aset (aset [] "project" (.vInt project_id))
    "user_story" (.vInt user_story_id)) "subject" (.vStr subject)

/-- The `taiga.tasks.create` tool handler.  `now` is the wall-clock reading
used for the idempotency-store operations of this invocation. -/
def taiga_tasks_create (env : TaigaEnv) (now : Rat) (user_story_id : Int) (subject : String)
    (description : Upd String) (assigned_to : Upd Int) (status : Upd StatusV)
    (tags : Upd (List String)) (due_date : Upd String) (idempotency_key : Upd String) :
    M Rec := do
  let story ← M.remote (.getUserStory user_story_id)
    (fun n => env.getUserStory n user_story_id)
  match (alookup story "project").bind pyInt with
  | none => M.throw (.taigaAPIError none "Unable to resolve project for task creation")
  | some project_id => do
    let cache_key : Option String :=
      match idempotency_key with
      | .given k =>
        if k = "" then none else some (_make_idempotency_cache_key k user_story_id subject)
      | _ => none
    let hit ← match cache_key with
      | some ck => M.storeGet ck now
      | none => pure none
    match hit with
    | some cached => pure cached
    | none => do
      let p0 := taskCreateBasePayload project_id user_story_id subject
      let p1 := maybeSet p0 "description" (description.toVal .vStr)
      let p2 := maybeSet p1 "assigned_to" (assigned_to.toVal .vInt)
      let p3 := maybeSet p2 "tags" (tagsVal tags)
      let p4 ← match due_date with
        | .unset => pure p3
        | dd =>
          match dueDateVal dd with
          | .ok v => pure (aset p3 "due_date" v)
          | .error e => M.throw e
      let payload ← match status with
        | .unset => pure p4
        | .null => pure (aset p4 "status" .vNull)
        | .given sv => do
          let sid ← _resolve_task_status_id env project_id (some sv)
          pure (aset p4 "status" (optV sid))
      let task ← M.remote (.createTask payload) (fun n => env.createTask n payload)
      match cache_key with
      | some ck =>
        if ck = "" then pure task
        else do
          M.storePut ck task now
          pure task
      | none => pure task

/-! ## The field projector (`_slice`) -/

/-- The `_slice` projector: the dict comprehension
`(key: record.get(key) for key in keys if key in record)`; `key in record`
holds exactly when the lookup is `some`, and the value stored is the looked
up value. -/
def _slice (record : Rec) (keys : List String) : Rec :=
  keys.foldl (fun acc k =>
    match alookup record k with
    | some v => aset acc k v
    | none => acc) []

/-! ## Heap model for aliasing of store values

`store` receives a reference to a caller-held dict and snapshots its current
content (`dict(value)`); `get` allocates a fresh dict for the caller.
Mutating a record means overwriting the object at its address. -/

/-- Values inside heap objects: scalars or references to other objects. -/
inductive HValue where
  | hInt (n : Int)
  | hStr (s : String)
  | hBool (b : Bool)
  | hNull
  | hRef (addr : Nat)
deriving DecidableEq

/-- Content of one Python dict object. -/
abbrev HObj := List (String × HValue)

/-- The heap: object contents indexed by address. -/
abbrev Heap := List HObj

def heapGet (h : Heap) (a : Nat) : Option HObj := h[a]?

/-- Mutation of the object at address `a`. -/
def heapSet (h : Heap) (a : Nat) (o : HObj) : Heap := h.set a o

/-- Allocation of a fresh object. -/
def heapAlloc (h : Heap) (o : HObj) : Heap × Nat := (h ++ [o], h.length)

/-- `store(key, value)` against a caller-held record at address `a`:
`dict(value)` snapshots the object's current top-level content (nested
references are copied as references — a shallow copy). -/
def hstoreStore (s : _IdempotencyStore HObj) (h : Heap) (key : String) (a : Nat)
    (now : Rat) : _IdempotencyStore HObj :=
  match heapGet h a with
  | some o => s.store key o now
  | none => s

/-- `get(key)` returning a record to the caller: a hit allocates a fresh
dict (`dict(value)`) holding the stored content. -/
def hstoreGet (s : _IdempotencyStore HObj) (h : Heap) (key : String) (now : Rat) :
    Option Nat × _IdempotencyStore HObj × Heap :=
  match s.get key now with
  | (none, s') => (none, s', h)
  | (some o, s') =>
    let al := heapAlloc h o
    (some al.2, s', al.1)

/-! ## Trace projections -/

/-- The story-update submissions contained in a call trace. -/
def updateStoryCalls (tr : List Call) : List (Int × Rec) :=
  tr.filterMap (fun c => match c with | .updateUserStory i p => some (i, p) | _ => none)

/-- The task-update submissions contained in a call trace. -/
def updateTaskCalls (tr : List Call) : List (Int × Rec) :=
  tr.filterMap (fun c => match c with | .updateTask i p => some (i, p) | _ => none)

/-- The task-create submissions contained in a call trace. -/
def createTaskCalls (tr : List Call) : List Rec :=
  tr.filterMap (fun c => match c with | .createTask p => some p | _ => none)

/-! ## Concrete test fixtures (used by witnesses and counterexamples) -/

/-- A deterministic environment: stories and tasks live in project 3 at
version 2; the status listings are empty for story statuses and contain the
single entry `(21, Doing, doing)` for task statuses; update and create echo
their payload back. -/
def envT : TaigaEnv where
  getUserStory := fun _ i => .ok [("id", .vInt i), ("project", .vInt 3), ("version", .vInt 2)]
  updateUserStory := fun _ _ p => .ok p
  listUserStoryStatuses := fun _ _ => .ok []
  getTask := fun _ i => .ok [("id", .vInt i), ("project", .vInt 3), ("version", .vInt 2)]
  updateTask := fun _ _ p => .ok p
  listTaskStatuses := fun _ _ =>
    .ok [[("id", .vInt 21), ("name", .vStr "Doing"), ("slug", .vStr "doing")]]
  createTask := fun _ p => .ok (("id", .vInt 99) :: p)

/-- An environment whose update calls always fail with a 409 conflict. -/
def envConflict : TaigaEnv where
  getUserStory := fun _ i => .ok [("id", .vInt i), ("project", .vInt 3), ("version", .vInt 2)]
  updateUserStory := fun _ _ _ => .error (.taigaAPIError (some 409) "Conflict")
  listUserStoryStatuses := fun _ _ => .ok []
  getTask := fun _ i => .ok [("id", .vInt i), ("project", .vInt 3), ("version", .vInt 2)]
  updateTask := fun _ _ _ => .error (.taigaAPIError (some 409) "Conflict")
  listTaskStatuses := fun _ _ => .ok []
  createTask := fun _ p => .ok p

/-- The empty idempotency store with the default TTL. -/
def stT : Store := _IdempotencyStore.init Rec

/-- A fixture environment whose create call returns a small fixed record. -/
def envK : TaigaEnv where
  getUserStory := fun _ i => .ok [("id", .vInt i), ("project", .vInt 3), ("version", .vInt 2)]
  updateUserStory := fun _ _ p => .ok p
  listUserStoryStatuses := fun _ _ => .ok []
  getTask := fun _ i => .ok [("id", .vInt i), ("project", .vInt 3), ("version", .vInt 2)]
  updateTask := fun _ _ p => .ok p
  listTaskStatuses := fun _ _ => .ok []
  createTask := fun _ _ => .ok [("id", .vInt 99)]

/-! ## Association-list lemmas -/

theorem alookup_nil {β : Type} (k : String) : alookup ([] : List (String × β)) k = none := rfl

theorem alookup_cons {β : Type} (p : String × β) (t : List (String × β)) (k : String) :
    alookup (p :: t) k = if p.1 = k then some p.2 else alookup t k := by
  by_cases h : p.1 = k <;> simp [alookup, List.find?_cons, h]

theorem alookup_eq_none_iff {β : Type} (l : List (String × β)) (k : String) :
    alookup l k = none ↔ ∀ p ∈ l, p.1 ≠ k := by
  simp [alookup, List.find?_eq_none]

theorem acontains_false_iff {β : Type} (l : List (String × β)) (k : String) :
    acontains l k = false ↔ ∀ p ∈ l, p.1 ≠ k := by
  simp [acontains, List.any_eq_true]

theorem alookup_append {β : Type} (l₁ l₂ : List (String × β)) (k : String) :
    alookup (l₁ ++ l₂) k =
      match alookup l₁ k with
      | some v => some v
      | none => alookup l₂ k := by
  induction l₁ with
  | nil => simp [alookup_nil]
  | cons p t ih =>
    rcases p with ⟨k₁, v₁⟩
    by_cases h : k₁ = k <;> simp [alookup_cons, h, ih]

theorem alookup_map_replace {β : Type} (l : List (String × β)) (k : String) (v : β)
    (hc : acontains l k = true) :
    alookup (l.map (fun p => if p.1 = k then (k, v) else p)) k = some v := by
  induction l with
  | nil => simp [acontains] at hc
  | cons p t ih =>
    by_cases hp : p.1 = k
    · simp [hp, alookup_cons]
    · have hc' : acontains t k = true := by
        simpa [acontains, hp] using hc
      simp [hp, alookup_cons, ih hc']

theorem alookup_map_replace_ne {β : Type} (l : List (String × β)) (k : String) (v : β)
    (k' : String) (h : k' ≠ k) :
    alookup (l.map (fun p => if p.1 = k then (k, v) else p)) k' = alookup l k' := by
  induction l with
  | nil => rfl
  | cons p t ih =>
    by_cases hp : p.1 = k
    · have h1 : ¬ (k = k') := fun hh => h hh.symm
      have h2 : ¬ (p.1 = k') := by rw [hp]; exact h1
      simp [hp, alookup_cons, h1, h2, ih]
    · by_cases hk' : p.1 = k' <;> simp [hp, hk', h, alookup_cons, ih]

theorem alookup_append_single {β : Type} (l : List (String × β)) (k : String) (v : β)
    (hc : acontains l k = false) :
    alookup (l ++ [(k, v)]) k = some v := by
  rw [alookup_append]
  have : alookup l k = none := by
    rw [alookup_eq_none_iff]
    exact (acontains_false_iff l k).1 hc
  simp [this, alookup_cons]

theorem alookup_aset_self {β : Type} (l : List (String × β)) (k : String) (v : β) :
    alookup (aset l k v) k = some v := by
  unfold aset
  by_cases hc : acontains l k
  · simp only [hc, if_true]
    exact alookup_map_replace l k v hc
  · simp only [Bool.not_eq_true] at hc
    simp only [hc, Bool.false_eq_true, if_false]
    exact alookup_append_single l k v hc

theorem alookup_aset_ne {β : Type} (l : List (String × β)) (k : String) (v : β)
    (k' : String) (h : k' ≠ k) :
    alookup (aset l k v) k' = alookup l k' := by
  unfold aset
  by_cases hc : acontains l k
  · simp only [hc, if_true]
    exact alookup_map_replace_ne l k v k' h
  · simp only [Bool.not_eq_true] at hc
    simp only [hc, Bool.false_eq_true, if_false]
    rw [alookup_append]
    have : k ≠ k' := fun hh => h hh.symm
    cases hl : alookup l k' <;> simp [alookup_cons, alookup_nil, this]

theorem mem_aset {β : Type} (l : List (String × β)) (k : String) (v : β)
    (p : String × β) (hp : p ∈ aset l k v) : p = (k, v) ∨ p ∈ l := by
  unfold aset at hp
  by_cases hc : acontains l k
  · simp only [hc, if_true, List.mem_map] at hp
    rcases hp with ⟨q, hq, hfq⟩
    by_cases hqk : q.1 = k
    · left; simp [hqk] at hfq; exact hfq.symm
    · right; simp [hqk] at hfq; exact hfq ▸ hq
  · simp only [Bool.not_eq_true] at hc
    simp only [hc, Bool.false_eq_true, if_false, List.mem_append, List.mem_singleton] at hp
    tauto

/-! ## Effect-monad unfolding lemmas -/

theorem M_bind_eq {α β : Type} (x : M α) (f : α → M β) : (x >>= f) = M.bindM x f := rfl

theorem M_pure_eq {α : Type} (a : α) : (pure a : M α) = M.pureM a := rfl

/-- Sanity check of the proof automation on the all-UNSET story update: the
initial fetch happens, the validation error is raised, no submit is made. -/
theorem stories_update_all_unset (env : TaigaEnv) (id : Int) (st : Store) (ex : Rec)
    (pid : Int) (h0 : env.getUserStory 0 id = .ok ex)
    (hp : (alookup ex "project").bind pyInt = some pid) :
    taiga_stories_update env id .unset .unset .unset .unset .unset .unset .unset .unset .unset
      st [] =
      (.error (.valueError "At least one field must be provided to update the story"), st,
        [.getUserStory id]) := by
  unfold taiga_stories_update
  simp [M_bind_eq, M.bindM, M.remote, M_pure_eq, M.pureM, M.throw, h0, hp,
    storyHasUpdates, Upd.isSet]

/-! ## Payload characterization lemmas -/

theorem alookup_maybeSet_ne (r : Rec) (k : String) (v? : Option Value) (k' : String)
    (h : k' ≠ k) : alookup (maybeSet r k v?) k' = alookup r k' := by
  cases v? <;> simp [maybeSet, alookup_aset_ne _ _ _ _ h]

theorem alookup_maybeSet_self (r : Rec) (k : String) (v? : Option Value)
    (h : alookup r k = none) : alookup (maybeSet r k v?) k = v? := by
  cases v? <;> simp [maybeSet, h, alookup_aset_self]

theorem storyFieldPayload_lookup (subject description : Upd String) (tags : Upd (List String))
    (assigned_to epic_id milestone_id : Upd Int)
    (custom_attributes : Upd (List (String × Value))) (k : String) :
    alookup (storyFieldPayload subject description tags assigned_to epic_id milestone_id
      custom_attributes) k =
      if k = "subject" then Upd.toVal .vStr subject
      else if k = "description" then Upd.toVal .vStr description
      else if k = "tags" then tagsVal tags
      else if k = "assigned_to" then Upd.toVal .vInt assigned_to
      else if k = "epic" then Upd.toVal .vInt epic_id
      else if k = "milestone" then Upd.toVal .vInt milestone_id
      else if k = "custom_attributes" then Upd.toVal .vDict custom_attributes
      else none := by
  unfold storyFieldPayload
  by_cases h1 : k = "subject" <;> by_cases h2 : k = "description" <;>
    by_cases h3 : k = "tags" <;> by_cases h4 : k = "assigned_to" <;>
    by_cases h5 : k = "epic" <;> by_cases h6 : k = "milestone" <;>
    by_cases h7 : k = "custom_attributes" <;>
    simp_all [alookup_maybeSet_ne, alookup_maybeSet_self, alookup_nil]

theorem taskFieldPayload_lookup (subject description : Upd String) (assigned_to : Upd Int)
    (tags : Upd (List String)) (k : String) :
    alookup (taskFieldPayload subject description assigned_to tags) k =
      if k = "subject" then Upd.toVal .vStr subject
      else if k = "description" then Upd.toVal .vStr description
      else if k = "assigned_to" then Upd.toVal .vInt assigned_to
      else if k = "tags" then tagsVal tags
      else none := by
  unfold taskFieldPayload
  by_cases h1 : k = "subject" <;> by_cases h2 : k = "description" <;>
    by_cases h3 : k = "assigned_to" <;> by_cases h4 : k = "tags" <;>
    simp_all [alookup_maybeSet_ne, alookup_maybeSet_self, alookup_nil]

/-! ## Trace-projection lemmas -/

theorem updateStoryCalls_append (a b : List Call) :
    updateStoryCalls (a ++ b) = updateStoryCalls a ++ updateStoryCalls b := by
  simp [updateStoryCalls, List.filterMap_append]

theorem updateTaskCalls_append (a b : List Call) :
    updateTaskCalls (a ++ b) = updateTaskCalls a ++ updateTaskCalls b := by
  simp [updateTaskCalls, List.filterMap_append]

theorem createTaskCalls_append (a b : List Call) :
    createTaskCalls (a ++ b) = createTaskCalls a ++ createTaskCalls b := by
  simp [createTaskCalls, List.filterMap_append]

/-! ## Submit-stage run lemmas -/

theorem storySubmit_run (env : TaigaEnv) (id : Int) (p2 : Rec) (st : Store) (tr : List Call) :
    storySubmit env id p2 st tr =
      match env.updateUserStory tr.length id p2 with
      | .ok u => (.ok u, st, tr ++ [.updateUserStory id p2])
      | .error (.taigaAPIError c m) =>
        if c = some 409 then
          match env.getUserStory (tr.length + 1) id with
          | .ok latest =>
              (.error (.valueError (storyConflictMsg id (alookup latest "version"))), st,
                tr ++ [.updateUserStory id p2, .getUserStory id])
          | .error e => (.error e, st, tr ++ [.updateUserStory id p2, .getUserStory id])
        else (.error (.taigaAPIError c m), st, tr ++ [.updateUserStory id p2])
      | .error (.valueError m) => (.error (.valueError m), st, tr ++ [.updateUserStory id p2]) := by
  unfold storySubmit
  simp only [M.catchTaiga, M.remote]
  cases hu : env.updateUserStory tr.length id p2 with
  | ok u => rfl
  | error e =>
    cases e with
    | valueError m => rfl
    | taigaAPIError c m =>
      by_cases hc : c = some 409
      · simp only [hc, if_true, if_pos rfl, M_bind_eq, M.bindM, M.remote, M.throw,
          List.length_append, List.length_cons, List.length_nil]
        cases hl : env.getUserStory (tr.length + 1) id <;> simp [List.append_assoc]
      · simp [hc, M.throw]

theorem taskSubmit_run (env : TaigaEnv) (id : Int) (p2 : Rec) (st : Store) (tr : List Call) :
    taskSubmit env id p2 st tr =
      match env.updateTask tr.length id p2 with
      | .ok u => (.ok u, st, tr ++ [.updateTask id p2])
      | .error (.taigaAPIError c m) =>
        if c = some 409 then
          match env.getTask (tr.length + 1) id with
          | .ok latest =>
              (.error (.valueError (taskConflictMsg id (alookup latest "version"))), st,
                tr ++ [.updateTask id p2, .getTask id])
          | .error e => (.error e, st, tr ++ [.updateTask id p2, .getTask id])
        else (.error (.taigaAPIError c m), st, tr ++ [.updateTask id p2])
      | .error (.valueError m) => (.error (.valueError m), st, tr ++ [.updateTask id p2]) := by
  unfold taskSubmit
  simp only [M.catchTaiga, M.remote]
  cases hu : env.updateTask tr.length id p2 with
  | ok u => rfl
  | error e =>
    cases e with
    | valueError m => rfl
    | taigaAPIError c m =>
      by_cases hc : c = some 409
      · simp only [hc, if_true, if_pos rfl, M_bind_eq, M.bindM, M.remote, M.throw,
          List.length_append, List.length_cons, List.length_nil]
        cases hl : env.getTask (tr.length + 1) id <;> simp [List.append_assoc]
      · simp [hc, M.throw]

/-! ## Master inversion lemma: story updates -/

theorem stories_update_submit_inv
    (env : TaigaEnv) (sid : Int)
    (subject description : Upd String) (status : Upd StatusV) (tags : Upd (List String))
    (assigned_to epic_id milestone_id : Upd Int)
    (custom_attributes : Upd (List (String × Value))) (version : Upd Int)
    (st : Store) (out : Except PyErr Rec × Store × List Call) (i : Int) (p : Rec)
    (hrun : taiga_stories_update env sid subject description status tags assigned_to epic_id
      milestone_id custom_attributes version st [] = out)
    (hmem : (i, p) ∈ updateStoryCalls out.2.2) :
    i = sid ∧ updateStoryCalls out.2.2 = [(sid, p)] ∧
    ∃ ex q n pre post,
      env.getUserStory 0 sid = Except.ok ex ∧
      p = aset q "version" (.vInt n) ∧
      (∀ v, version = .given v → n = v) ∧
      ((version = .unset ∨ version = .null) → storyVersionValue ex = .ok n) ∧
      (status = .unset →
        q = storyFieldPayload subject description tags assigned_to epic_id milestone_id
          custom_attributes) ∧
      (status = .null →
        q = aset (storyFieldPayload subject description tags assigned_to epic_id milestone_id
          custom_attributes) "status" Value.vNull) ∧
      (∀ sv, status = .given sv →
        ∃ w, q = aset (storyFieldPayload subject description tags assigned_to epic_id
          milestone_id custom_attributes) "status" w) ∧
      (pre = [Call.getUserStory sid] ∨
        ∃ pid, pre = [Call.getUserStory sid, Call.listUserStoryStatuses pid]) ∧
      out.2.2 = pre ++ [Call.updateUserStory sid p] ++ post ∧
      (∀ u, env.updateUserStory pre.length sid p = .ok u → post = [] ∧ out.1 = .ok u) ∧
      (∀ m, env.updateUserStory pre.length sid p = .error (.taigaAPIError (some 409) m) →
        post = [Call.getUserStory sid] ∧
        ((∃ latest, env.getUserStory (pre.length + 1) sid = .ok latest ∧
            out.1 = .error (.valueError (storyConflictMsg sid (alookup latest "version")))) ∨
          (∃ e, env.getUserStory (pre.length + 1) sid = .error e ∧ out.1 = .error e))) ∧
      (∀ c m, env.updateUserStory pre.length sid p = .error (.taigaAPIError c m) →
        c ≠ some 409 → post = [] ∧ out.1 = .error (.taigaAPIError c m)) ∧
      (∀ m, env.updateUserStory pre.length sid p = .error (.valueError m) →
        post = [] ∧ out.1 = .error (.valueError m)) := by
  unfold taiga_stories_update at hrun
  simp only [M_bind_eq, M.bindM, M_pure_eq, M.pureM, M.remote, M.throw,
    List.length_nil, List.nil_append] at hrun
  cases h0 : env.getUserStory 0 sid with
  | error e =>
    simp only [h0] at hrun
    subst hrun
    simp [updateStoryCalls, M.throw] at hmem
  | ok ex =>
    simp only [h0] at hrun
    cases hpr : (alookup ex "project").bind pyInt with
    | none =>
      simp only [hpr] at hrun
      subst hrun
      simp [updateStoryCalls, M.throw] at hmem
    | some pid =>
      simp only [hpr] at hrun
      have main :
          ∀ (q : Rec) (tr1 : List Call),
            (tr1 = [Call.getUserStory sid] ∨
              ∃ pid2, tr1 = [Call.getUserStory sid, Call.listUserStoryStatuses pid2]) →
            updateStoryCalls tr1 = [] →
            ((if storyHasUpdates subject description status tags assigned_to epic_id
                milestone_id custom_attributes = true then
                match version with
                | .given v =>
                  M.bindM (M.pureM (aset q "version" (.vInt v)))
                    (fun y => storySubmit env sid y)
                | _ =>
                  match storyVersionValue ex with
                  | .error e => M.bindM (M.throw e) (fun y => storySubmit env sid y)
                  | .ok n =>
                    M.bindM (M.pureM (aset q "version" (.vInt n)))
                      (fun y => storySubmit env sid y)
              else
                M.throw (.valueError "At least one field must be provided to update the story"))
                st tr1 = out) →
            (i, p) ∈ updateStoryCalls out.2.2 →
            i = sid ∧ updateStoryCalls out.2.2 = [(sid, p)] ∧
            ∃ n pre post,
              p = aset q "version" (.vInt n) ∧
              (∀ v, version = .given v → n = v) ∧
              ((version = .unset ∨ version = .null) → storyVersionValue ex = .ok n) ∧
              (pre = [Call.getUserStory sid] ∨
                ∃ pid2, pre = [Call.getUserStory sid, Call.listUserStoryStatuses pid2]) ∧
              out.2.2 = pre ++ [Call.updateUserStory sid p] ++ post ∧
              (∀ u, env.updateUserStory pre.length sid p = .ok u → post = [] ∧ out.1 = .ok u) ∧
              (∀ m, env.updateUserStory pre.length sid p =
                  .error (.taigaAPIError (some 409) m) →
                post = [Call.getUserStory sid] ∧
                ((∃ latest, env.getUserStory (pre.length + 1) sid = .ok latest ∧
                    out.1 = .error (.valueError (storyConflictMsg sid
                      (alookup latest "version")))) ∨
                  (∃ e, env.getUserStory (pre.length + 1) sid = .error e ∧
                    out.1 = .error e))) ∧
              (∀ c m, env.updateUserStory pre.length sid p = .error (.taigaAPIError c m) →
                c ≠ some 409 → post = [] ∧ out.1 = .error (.taigaAPIError c m)) ∧
              (∀ m, env.updateUserStory pre.length sid p = .error (.valueError m) →
                post = [] ∧ out.1 = .error (.valueError m)) := by
        intro q tr1 htr1 htr1u hrun1 hmem1
        by_cases hhas : storyHasUpdates subject description status tags assigned_to epic_id
            milestone_id custom_attributes = true
        case neg =>
          rw [if_neg hhas] at hrun1
          simp only [M.throw] at hrun1
          subst hrun1
          simp only [M.throw] at hmem1
          rw [htr1u] at hmem1
          simp at hmem1
        case pos =>
          rw [if_pos hhas] at hrun1
          have step :
              ∀ (n : Int),
                M.bindM (M.pureM (aset q "version" (.vInt n)))
                  (fun payload2 => storySubmit env sid payload2) st tr1 = out →
                (i, p) ∈ updateStoryCalls out.2.2 →
                i = sid ∧ updateStoryCalls out.2.2 = [(sid, p)] ∧
                ∃ pre post,
                  p = aset q "version" (.vInt n) ∧
                  (pre = [Call.getUserStory sid] ∨
                    ∃ pid2, pre = [Call.getUserStory sid,
                      Call.listUserStoryStatuses pid2]) ∧
                  out.2.2 = pre ++ [Call.updateUserStory sid p] ++ post ∧
                  (∀ u, env.updateUserStory pre.length sid p = .ok u →
                    post = [] ∧ out.1 = .ok u) ∧
                  (∀ m, env.updateUserStory pre.length sid p =
                      .error (.taigaAPIError (some 409) m) →
                    post = [Call.getUserStory sid] ∧
                    ((∃ latest, env.getUserStory (pre.length + 1) sid = .ok latest ∧
                        out.1 = .error (.valueError (storyConflictMsg sid
                          (alookup latest "version")))) ∨
                      (∃ e, env.getUserStory (pre.length + 1) sid = .error e ∧
                        out.1 = .error e))) ∧
                  (∀ c m, env.updateUserStory pre.length sid p =
                      .error (.taigaAPIError c m) → c ≠ some 409 →
                    post = [] ∧ out.1 = .error (.taigaAPIError c m)) ∧
                  (∀ m, env.updateUserStory pre.length sid p = .error (.valueError m) →
                    post = [] ∧ out.1 = .error (.valueError m)) := by
            intro n hrun2 hmem2
            simp only [M.bindM, M.pureM] at hrun2
            rw [storySubmit_run] at hrun2
            cases hu : env.updateUserStory tr1.length sid (aset q "version" (.vInt n)) with
            | ok u =>
              simp only [hu] at hrun2
              subst hrun2
              simp only at hmem2
              rw [updateStoryCalls_append, htr1u] at hmem2
              simp [updateStoryCalls] at hmem2
              obtain ⟨hi, rfl⟩ := hmem2
              refine ⟨hi, ?_, tr1, [], rfl, htr1, by simp, ?_, ?_, ?_, ?_⟩
              · simp only; rw [updateStoryCalls_append, htr1u]; simp [updateStoryCalls]
              · intro u' hu'; rw [hu] at hu'; cases hu'; exact ⟨rfl, rfl⟩
              · intro m hm; rw [hu] at hm; cases hm
              · intro c m hm; rw [hu] at hm; cases hm
              · intro m hm; rw [hu] at hm; cases hm
            | error err =>
              cases err with
              | valueError m =>
                simp only [hu] at hrun2
                subst hrun2
                simp only at hmem2
                rw [updateStoryCalls_append, htr1u] at hmem2
                simp [updateStoryCalls] at hmem2
                obtain ⟨hi, rfl⟩ := hmem2
                refine ⟨hi, ?_, tr1, [], rfl, htr1, by simp, ?_, ?_, ?_, ?_⟩
                · simp only; rw [updateStoryCalls_append, htr1u]; simp [updateStoryCalls]
                · intro u' hu'; rw [hu] at hu'; cases hu'
                · intro m' hm; rw [hu] at hm; cases hm
                · intro c m' hm; rw [hu] at hm; cases hm
                · intro m' hm; rw [hu] at hm; cases hm; exact ⟨rfl, rfl⟩
              | taigaAPIError c m =>
                by_cases hc : c = some 409
                · subst hc
                  simp only [hu, eq_self_iff_true, if_true] at hrun2
                  cases hl : env.getUserStory (tr1.length + 1) sid with
                  | ok latest =>
                    simp only [hl] at hrun2
                    subst hrun2
                    simp only at hmem2
                    rw [updateStoryCalls_append, htr1u] at hmem2
                    simp [updateStoryCalls] at hmem2
                    obtain ⟨hi, rfl⟩ := hmem2
                    refine ⟨hi, ?_, tr1, [Call.getUserStory sid], rfl, htr1,
                      by simp, ?_, ?_, ?_, ?_⟩
                    · simp only; rw [updateStoryCalls_append, htr1u]
                      simp [updateStoryCalls]
                    · intro u' hu'; rw [hu] at hu'; cases hu'
                    · intro m' hm; rw [hu] at hm; cases hm
                      exact ⟨rfl, Or.inl ⟨latest, hl, rfl⟩⟩
                    · intro c' m' hm hne; rw [hu] at hm; cases hm; exact absurd rfl hne
                    · intro m' hm; rw [hu] at hm; cases hm
                  | error e =>
                    simp only [hl] at hrun2
                    subst hrun2
                    simp only at hmem2
                    rw [updateStoryCalls_append, htr1u] at hmem2
                    simp [updateStoryCalls] at hmem2
                    obtain ⟨hi, rfl⟩ := hmem2
                    refine ⟨hi, ?_, tr1, [Call.getUserStory sid], rfl, htr1,
                      by simp, ?_, ?_, ?_, ?_⟩
                    · simp only; rw [updateStoryCalls_append, htr1u]
                      simp [updateStoryCalls]
                    · intro u' hu'; rw [hu] at hu'; cases hu'
                    · intro m' hm; rw [hu] at hm; cases hm
                      exact ⟨rfl, Or.inr ⟨e, hl, rfl⟩⟩
                    · intro c' m' hm hne; rw [hu] at hm; cases hm; exact absurd rfl hne
                    · intro m' hm; rw [hu] at hm; cases hm
                · simp only [hu, if_neg hc] at hrun2
                  subst hrun2
                  simp only at hmem2
                  rw [updateStoryCalls_append, htr1u] at hmem2
                  simp [updateStoryCalls] at hmem2
                  obtain ⟨hi, rfl⟩ := hmem2
                  refine ⟨hi, ?_, tr1, [], rfl, htr1, by simp, ?_, ?_, ?_, ?_⟩
                  · simp only; rw [updateStoryCalls_append, htr1u]; simp [updateStoryCalls]
                  · intro u' hu'; rw [hu] at hu'; cases hu'
                  · intro m' hm; rw [hu] at hm; cases hm; exact absurd rfl hc
                  · intro c' m' hm hne; rw [hu] at hm; cases hm; exact ⟨rfl, rfl⟩
                  · intro m' hm; rw [hu] at hm; cases hm
          cases version with
          | given v =>
            simp only at hrun1
            obtain ⟨hi, hlist, pre, post, hp, hpre, htr, h1, h2, h3, h4⟩ :=
              step v hrun1 hmem1
            exact ⟨hi, hlist, v, pre, post, hp, fun v' hv => (by cases hv; rfl),
              fun hv => (by rcases hv with hv | hv <;> cases hv), hpre, htr, h1, h2, h3, h4⟩
          | unset =>
            simp only at hrun1
            cases hvv : storyVersionValue ex with
            | error e =>
              simp only [hvv, M.bindM, M.throw] at hrun1
              subst hrun1
              simp only [M.bindM, M.throw] at hmem1
              rw [htr1u] at hmem1
              simp at hmem1
            | ok n =>
              simp only [hvv] at hrun1
              obtain ⟨hi, hlist, pre, post, hp, hpre, htr, h1, h2, h3, h4⟩ :=
                step n hrun1 hmem1
              exact ⟨hi, hlist, n, pre, post, hp, fun v' hv => (by cases hv),
                fun _ => rfl, hpre, htr, h1, h2, h3, h4⟩
          | null =>
            simp only at hrun1
            cases hvv : storyVersionValue ex with
            | error e =>
              simp only [hvv, M.bindM, M.throw] at hrun1
              subst hrun1
              simp only [M.bindM, M.throw] at hmem1
              rw [htr1u] at hmem1
              simp at hmem1
            | ok n =>
              simp only [hvv] at hrun1
              obtain ⟨hi, hlist, pre, post, hp, hpre, htr, h1, h2, h3, h4⟩ :=
                step n hrun1 hmem1
              exact ⟨hi, hlist, n, pre, post, hp, fun v' hv => (by cases hv),
                fun _ => rfl, hpre, htr, h1, h2, h3, h4⟩
      cases status with
      | unset =>
        simp only [M.bindM, M.pureM] at hrun
        obtain ⟨hi, hlist, n, pre, post, hp, hv1, hv2, hpre, htr, h1, h2, h3, h4⟩ :=
          main (storyFieldPayload subject description tags assigned_to epic_id milestone_id
            custom_attributes) [Call.getUserStory sid] (Or.inl rfl)
            (by simp [updateStoryCalls]) hrun hmem
        exact ⟨hi, hlist, ex, _, n, pre, post, rfl, hp, hv1, hv2, fun _ => rfl,
          fun hh => (by cases hh), fun sv hh => (by cases hh), hpre, htr, h1, h2, h3, h4⟩
      | null =>
        simp only [M.bindM, M.pureM] at hrun
        obtain ⟨hi, hlist, n, pre, post, hp, hv1, hv2, hpre, htr, h1, h2, h3, h4⟩ :=
          main (aset (storyFieldPayload subject description tags assigned_to epic_id
            milestone_id custom_attributes) "status" Value.vNull) [Call.getUserStory sid]
            (Or.inl rfl) (by simp [updateStoryCalls]) hrun hmem
        exact ⟨hi, hlist, ex, _, n, pre, post, rfl, hp, hv1, hv2, fun hh => (by cases hh),
          fun _ => rfl, fun sv hh => (by cases hh), hpre, htr, h1, h2, h3, h4⟩
      | given sv =>
        cases sv with
        | sInt sn =>
          simp only [_resolve_user_story_status_id, M.bindM, M.pureM, M_bind_eq,
            M_pure_eq] at hrun
          obtain ⟨hi, hlist, n, pre, post, hp, hv1, hv2, hpre, htr, h1, h2, h3, h4⟩ :=
            main (aset (storyFieldPayload subject description tags assigned_to epic_id
              milestone_id custom_attributes) "status" (optV (some (.vInt sn))))
              [Call.getUserStory sid] (Or.inl rfl) (by simp [updateStoryCalls]) hrun hmem
          exact ⟨hi, hlist, ex, _, n, pre, post, rfl, hp, hv1, hv2, fun hh => (by cases hh),
            fun hh => (by cases hh), fun sv' hh => (by cases hh; exact ⟨_, rfl⟩), hpre, htr,
            h1, h2, h3, h4⟩
        | sStr s =>
          simp only [_resolve_user_story_status_id, M.bindM, M.pureM, M_bind_eq,
            M_pure_eq, M.remote, M.throw, List.length_cons, List.length_nil] at hrun
          cases hls : env.listUserStoryStatuses 1 pid with
          | error e =>
            simp only [hls] at hrun
            subst hrun
            simp [updateStoryCalls, M.throw] at hmem
          | ok sts =>
            simp only [hls] at hrun
            cases hf : sts.find? (fun e => statusEntryMatches e s) with
            | none =>
              simp only [hf, M.throw] at hrun
              subst hrun
              simp [updateStoryCalls, M.throw] at hmem
            | some entry =>
              simp only [hf] at hrun
              simp only [M.pureM, M.bindM, List.cons_append, List.nil_append] at hrun
              obtain ⟨hi, hlist, n, pre, post, hp, hv1, hv2, hpre, htr, h1, h2, h3, h4⟩ :=
                main (aset (storyFieldPayload subject description tags assigned_to epic_id
                  milestone_id custom_attributes) "status" (optV (alookup entry "id")))
                  [Call.getUserStory sid, Call.listUserStoryStatuses pid]
                  (Or.inr ⟨pid, rfl⟩) (by simp [updateStoryCalls]) hrun hmem
              exact ⟨hi, hlist, ex, _, n, pre, post, rfl, hp, hv1, hv2,
                fun hh => (by cases hh), fun hh => (by cases hh),
                fun sv' hh => (by cases hh; exact ⟨_, rfl⟩), hpre, htr, h1, h2, h3, h4⟩

/-! ## Master inversion lemma: task updates -/

theorem tasks_update_submit_inv
    (env : TaigaEnv) (tid : Int)
    (subject description : Upd String) (assigned_to : Upd Int) (status : Upd StatusV)
    (tags : Upd (List String)) (due_date : Upd String) (version : Upd Int)
    (st : Store) (out : Except PyErr Rec × Store × List Call) (i : Int) (p : Rec)
    (hrun : taiga_tasks_update env tid subject description assigned_to status tags due_date
      version st [] = out)
    (hmem : (i, p) ∈ updateTaskCalls out.2.2) :
    i = tid ∧ updateTaskCalls out.2.2 = [(tid, p)] ∧
    ∃ ex b q n pre post,
      env.getTask 0 tid = Except.ok ex ∧
      p = aset q "version" (.vInt n) ∧
      (∀ v, version = .given v → n = v) ∧
      ((version = .unset ∨ version = .null) → taskVersionValue ex = .ok n) ∧
      (due_date = .unset → b = taskFieldPayload subject description assigned_to tags) ∧
      (due_date ≠ .unset → ∃ v, dueDateVal due_date = .ok v ∧
        b = aset (taskFieldPayload subject description assigned_to tags) "due_date" v) ∧
      (status = .unset → q = b) ∧
      (status = .null → q = aset b "status" Value.vNull) ∧
      (∀ sv, status = .given sv → ∃ w, q = aset b "status" w) ∧
      (pre = [Call.getTask tid] ∨
        ∃ pid, pre = [Call.getTask tid, Call.listTaskStatuses pid]) ∧
      out.2.2 = pre ++ [Call.updateTask tid p] ++ post ∧
      (∀ u, env.updateTask pre.length tid p = .ok u → post = [] ∧ out.1 = .ok u) ∧
      (∀ m, env.updateTask pre.length tid p = .error (.taigaAPIError (some 409) m) →
        post = [Call.getTask tid] ∧
        ((∃ latest, env.getTask (pre.length + 1) tid = .ok latest ∧
            out.1 = .error (.valueError (taskConflictMsg tid (alookup latest "version")))) ∨
          (∃ e, env.getTask (pre.length + 1) tid = .error e ∧ out.1 = .error e))) ∧
      (∀ c m, env.updateTask pre.length tid p = .error (.taigaAPIError c m) →
        c ≠ some 409 → post = [] ∧ out.1 = .error (.taigaAPIError c m)) ∧
      (∀ m, env.updateTask pre.length tid p = .error (.valueError m) →
        post = [] ∧ out.1 = .error (.valueError m)) := by
  unfold taiga_tasks_update at hrun
  simp only [M_bind_eq, M.bindM, M_pure_eq, M.pureM, M.remote, M.throw,
    List.length_nil, List.nil_append] at hrun
  cases h0 : env.getTask 0 tid with
  | error e =>
    simp only [h0] at hrun
    subst hrun
    simp [updateTaskCalls, M.throw] at hmem
  | ok ex =>
    simp only [h0] at hrun
    cases hpr : (alookup ex "project").bind pyInt with
    | none =>
      simp only [hpr] at hrun
      subst hrun
      simp [updateTaskCalls, M.throw] at hmem
    | some pid =>
      simp only [hpr] at hrun
      have main :
          ∀ (q : Rec) (tr1 : List Call),
            (tr1 = [Call.getTask tid] ∨
              ∃ pid2, tr1 = [Call.getTask tid, Call.listTaskStatuses pid2]) →
            updateTaskCalls tr1 = [] →
            ((if taskHasUpdates subject description assigned_to status tags due_date
                = true then
                match version with
                | .given v =>
                  M.bindM (M.pureM (aset q "version" (.vInt v)))
                    (fun y => taskSubmit env tid y)
                | _ =>
                  match taskVersionValue ex with
                  | .error e => M.bindM (M.throw e) (fun y => taskSubmit env tid y)
                  | .ok n =>
                    M.bindM (M.pureM (aset q "version" (.vInt n)))
                      (fun y => taskSubmit env tid y)
              else
                M.throw (.valueError "At least one field must be provided to update the task"))
                st tr1 = out) →
            (i, p) ∈ updateTaskCalls out.2.2 →
            i = tid ∧ updateTaskCalls out.2.2 = [(tid, p)] ∧
            ∃ n pre post,
              p = aset q "version" (.vInt n) ∧
              (∀ v, version = .given v → n = v) ∧
              ((version = .unset ∨ version = .null) → taskVersionValue ex = .ok n) ∧
              (pre = [Call.getTask tid] ∨
                ∃ pid2, pre = [Call.getTask tid, Call.listTaskStatuses pid2]) ∧
              out.2.2 = pre ++ [Call.updateTask tid p] ++ post ∧
              (∀ u, env.updateTask pre.length tid p = .ok u → post = [] ∧ out.1 = .ok u) ∧
              (∀ m, env.updateTask pre.length tid p =
                  .error (.taigaAPIError (some 409) m) →
                post = [Call.getTask tid] ∧
                ((∃ latest, env.getTask (pre.length + 1) tid = .ok latest ∧
                    out.1 = .error (.valueError (taskConflictMsg tid
                      (alookup latest "version")))) ∨
                  (∃ e, env.getTask (pre.length + 1) tid = .error e ∧
                    out.1 = .error e))) ∧
              (∀ c m, env.updateTask pre.length tid p = .error (.taigaAPIError c m) →
                c ≠ some 409 → post = [] ∧ out.1 = .error (.taigaAPIError c m)) ∧
              (∀ m, env.updateTask pre.length tid p = .error (.valueError m) →
                post = [] ∧ out.1 = .error (.valueError m)) := by
        intro q tr1 htr1 htr1u hrun1 hmem1
        by_cases hhas : taskHasUpdates subject description assigned_to status tags due_date
            = true
        case neg =>
          rw [if_neg hhas] at hrun1
          simp only [M.throw] at hrun1
          subst hrun1
          simp only [M.throw] at hmem1
          rw [htr1u] at hmem1
          simp at hmem1
        case pos =>
          rw [if_pos hhas] at hrun1
          have step :
              ∀ (n : Int),
                M.bindM (M.pureM (aset q "version" (.vInt n)))
                  (fun y => taskSubmit env tid y) st tr1 = out →
                (i, p) ∈ updateTaskCalls out.2.2 →
                i = tid ∧ updateTaskCalls out.2.2 = [(tid, p)] ∧
                ∃ pre post,
                  p = aset q "version" (.vInt n) ∧
                  (pre = [Call.getTask tid] ∨
                    ∃ pid2, pre = [Call.getTask tid, Call.listTaskStatuses pid2]) ∧
                  out.2.2 = pre ++ [Call.updateTask tid p] ++ post ∧
                  (∀ u, env.updateTask pre.length tid p = .ok u →
                    post = [] ∧ out.1 = .ok u) ∧
                  (∀ m, env.updateTask pre.length tid p =
                      .error (.taigaAPIError (some 409) m) →
                    post = [Call.getTask tid] ∧
                    ((∃ latest, env.getTask (pre.length + 1) tid = .ok latest ∧
                        out.1 = .error (.valueError (taskConflictMsg tid
                          (alookup latest "version")))) ∨
                      (∃ e, env.getTask (pre.length + 1) tid = .error e ∧
                        out.1 = .error e))) ∧
                  (∀ c m, env.updateTask pre.length tid p =
                      .error (.taigaAPIError c m) → c ≠ some 409 →
                    post = [] ∧ out.1 = .error (.taigaAPIError c m)) ∧
                  (∀ m, env.updateTask pre.length tid p = .error (.valueError m) →
                    post = [] ∧ out.1 = .error (.valueError m)) := by
            intro n hrun2 hmem2
            simp only [M.bindM, M.pureM] at hrun2
            rw [taskSubmit_run] at hrun2
            cases hu : env.updateTask tr1.length tid (aset q "version" (.vInt n)) with
            | ok u =>
              simp only [hu] at hrun2
              subst hrun2
              simp only at hmem2
              rw [updateTaskCalls_append, htr1u] at hmem2
              simp [updateTaskCalls] at hmem2
              obtain ⟨hi, rfl⟩ := hmem2
              refine ⟨hi, ?_, tr1, [], rfl, htr1, by simp, ?_, ?_, ?_, ?_⟩
              · simp only; rw [updateTaskCalls_append, htr1u]; simp [updateTaskCalls]
              · intro u' hu'; rw [hu] at hu'; cases hu'; exact ⟨rfl, rfl⟩
              · intro m hm; rw [hu] at hm; cases hm
              · intro c m hm; rw [hu] at hm; cases hm
              · intro m hm; rw [hu] at hm; cases hm
            | error err =>
              cases err with
              | valueError m =>
                simp only [hu] at hrun2
                subst hrun2
                simp only at hmem2
                rw [updateTaskCalls_append, htr1u] at hmem2
                simp [updateTaskCalls] at hmem2
                obtain ⟨hi, rfl⟩ := hmem2
                refine ⟨hi, ?_, tr1, [], rfl, htr1, by simp, ?_, ?_, ?_, ?_⟩
                · simp only; rw [updateTaskCalls_append, htr1u]; simp [updateTaskCalls]
                · intro u' hu'; rw [hu] at hu'; cases hu'
                · intro m' hm; rw [hu] at hm; cases hm
                · intro c m' hm; rw [hu] at hm; cases hm
                · intro m' hm; rw [hu] at hm; cases hm; exact ⟨rfl, rfl⟩
              | taigaAPIError c m =>
                by_cases hc : c = some 409
                · subst hc
                  simp only [hu, eq_self_iff_true, if_true] at hrun2
                  cases hl : env.getTask (tr1.length + 1) tid with
                  | ok latest =>
                    simp only [hl] at hrun2
                    subst hrun2
                    simp only at hmem2
                    rw [updateTaskCalls_append, htr1u] at hmem2
                    simp [updateTaskCalls] at hmem2
                    obtain ⟨hi, rfl⟩ := hmem2
                    refine ⟨hi, ?_, tr1, [Call.getTask tid], rfl, htr1,
                      by simp, ?_, ?_, ?_, ?_⟩
                    · simp only; rw [updateTaskCalls_append, htr1u]
                      simp [updateTaskCalls]
                    · intro u' hu'; rw [hu] at hu'; cases hu'
                    · intro m' hm; rw [hu] at hm; cases hm
                      exact ⟨rfl, Or.inl ⟨latest, hl, rfl⟩⟩
                    · intro c' m' hm hne; rw [hu] at hm; cases hm; exact absurd rfl hne
                    · intro m' hm; rw [hu] at hm; cases hm
                  | error e =>
                    simp only [hl] at hrun2
                    subst hrun2
                    simp only at hmem2
                    rw [updateTaskCalls_append, htr1u] at hmem2
                    simp [updateTaskCalls] at hmem2
                    obtain ⟨hi, rfl⟩ := hmem2
                    refine ⟨hi, ?_, tr1, [Call.getTask tid], rfl, htr1,
                      by simp, ?_, ?_, ?_, ?_⟩
                    · simp only; rw [updateTaskCalls_append, htr1u]
                      simp [updateTaskCalls]
                    · intro u' hu'; rw [hu] at hu'; cases hu'
                    · intro m' hm; rw [hu] at hm; cases hm
                      exact ⟨rfl, Or.inr ⟨e, hl, rfl⟩⟩
                    · intro c' m' hm hne; rw [hu] at hm; cases hm; exact absurd rfl hne
                    · intro m' hm; rw [hu] at hm; cases hm
                · simp only [hu, if_neg hc] at hrun2
                  subst hrun2
                  simp only at hmem2
                  rw [updateTaskCalls_append, htr1u] at hmem2
                  simp [updateTaskCalls] at hmem2
                  obtain ⟨hi, rfl⟩ := hmem2
                  refine ⟨hi, ?_, tr1, [], rfl, htr1, by simp, ?_, ?_, ?_, ?_⟩
                  · simp only; rw [updateTaskCalls_append, htr1u]; simp [updateTaskCalls]
                  · intro u' hu'; rw [hu] at hu'; cases hu'
                  · intro m' hm; rw [hu] at hm; cases hm; exact absurd rfl hc
                  · intro c' m' hm hne; rw [hu] at hm; cases hm; exact ⟨rfl, rfl⟩
                  · intro m' hm; rw [hu] at hm; cases hm
          cases version with
          | given v =>
            simp only at hrun1
            obtain ⟨hi, hlist, pre, post, hp, hpre, htr, h1, h2, h3, h4⟩ :=
              step v hrun1 hmem1
            exact ⟨hi, hlist, v, pre, post, hp, fun v' hv => (by cases hv; rfl),
              fun hv => (by rcases hv with hv | hv <;> cases hv), hpre, htr, h1, h2, h3, h4⟩
          | unset =>
            simp only at hrun1
            cases hvv : taskVersionValue ex with
            | error e =>
              simp only [hvv, M.bindM, M.throw] at hrun1
              subst hrun1
              simp only [M.bindM, M.throw] at hmem1
              rw [htr1u] at hmem1
              simp at hmem1
            | ok n =>
              simp only [hvv] at hrun1
              obtain ⟨hi, hlist, pre, post, hp, hpre, htr, h1, h2, h3, h4⟩ :=
                step n hrun1 hmem1
              exact ⟨hi, hlist, n, pre, post, hp, fun v' hv => (by cases hv),
                fun _ => rfl, hpre, htr, h1, h2, h3, h4⟩
          | null =>
            simp only at hrun1
            cases hvv : taskVersionValue ex with
            | error e =>
              simp only [hvv, M.bindM, M.throw] at hrun1
              subst hrun1
              simp only [M.bindM, M.throw] at hmem1
              rw [htr1u] at hmem1
              simp at hmem1
            | ok n =>
              simp only [hvv] at hrun1
              obtain ⟨hi, hlist, pre, post, hp, hpre, htr, h1, h2, h3, h4⟩ :=
                step n hrun1 hmem1
              exact ⟨hi, hlist, n, pre, post, hp, fun v' hv => (by cases hv),
                fun _ => rfl, hpre, htr, h1, h2, h3, h4⟩
      cases due_date with
      | unset =>
        simp only [M.bindM, M.pureM] at hrun
        cases status with
        | unset =>
          simp only [M.bindM, M.pureM] at hrun
          obtain ⟨hi, hlist, n, pre, post, hp, hv1, hv2, hpre, htr, h1, h2, h3, h4⟩ :=
            main (taskFieldPayload subject description assigned_to tags) [Call.getTask tid] (Or.inl rfl)
              (by simp [updateTaskCalls]) hrun hmem
          exact ⟨hi, hlist, ex, _, _, n, pre, post, rfl, hp, hv1, hv2, fun _ => rfl,
            fun hh => absurd rfl hh, fun _ => rfl, fun hh => (by cases hh),
            fun sv hh => (by cases hh), hpre, htr, h1, h2, h3, h4⟩
        | null =>
          simp only [M.bindM, M.pureM] at hrun
          obtain ⟨hi, hlist, n, pre, post, hp, hv1, hv2, hpre, htr, h1, h2, h3, h4⟩ :=
            main (aset (taskFieldPayload subject description assigned_to tags) "status" Value.vNull) [Call.getTask tid]
              (Or.inl rfl) (by simp [updateTaskCalls]) hrun hmem
          exact ⟨hi, hlist, ex, _, _, n, pre, post, rfl, hp, hv1, hv2, fun _ => rfl,
            fun hh => absurd rfl hh, fun hh => (by cases hh), fun _ => rfl,
            fun sv hh => (by cases hh), hpre, htr, h1, h2, h3, h4⟩
        | given sv =>
          cases sv with
          | sInt sn =>
            simp only [_resolve_task_status_id, M.bindM, M.pureM, M_bind_eq,
              M_pure_eq] at hrun
            obtain ⟨hi, hlist, n, pre, post, hp, hv1, hv2, hpre, htr, h1, h2, h3, h4⟩ :=
              main (aset (taskFieldPayload subject description assigned_to tags) "status" (optV (some (.vInt sn))))
                [Call.getTask tid] (Or.inl rfl) (by simp [updateTaskCalls]) hrun hmem
            exact ⟨hi, hlist, ex, _, _, n, pre, post, rfl, hp, hv1, hv2, fun _ => rfl,
              fun hh => absurd rfl hh, fun hh => (by cases hh), fun hh => (by cases hh),
              fun sv2 hh => (by cases hh; exact ⟨_, rfl⟩), hpre, htr, h1, h2, h3, h4⟩
          | sStr s =>
            simp only [_resolve_task_status_id, M.bindM, M.pureM, M_bind_eq,
              M_pure_eq, M.remote, M.throw, List.length_cons, List.length_nil] at hrun
            cases hls : env.listTaskStatuses 1 pid with
            | error e =>
              simp only [hls] at hrun
              subst hrun
              simp [updateTaskCalls, M.throw] at hmem
            | ok sts =>
              simp only [hls] at hrun
              cases hf : sts.find? (fun e => statusEntryMatches e s) with
              | none =>
                simp only [hf, M.throw] at hrun
                subst hrun
                simp [updateTaskCalls, M.throw] at hmem
              | some entry =>
                simp only [hf] at hrun
                simp only [M.pureM, M.bindM, List.cons_append, List.nil_append] at hrun
                obtain ⟨hi, hlist, n, pre, post, hp, hv1, hv2, hpre, htr,
                  h1, h2, h3, h4⟩ :=
                  main (aset (taskFieldPayload subject description assigned_to tags) "status" (optV (alookup entry "id")))
                    [Call.getTask tid, Call.listTaskStatuses pid] (Or.inr ⟨pid, rfl⟩)
                    (by simp [updateTaskCalls]) hrun hmem
                exact ⟨hi, hlist, ex, _, _, n, pre, post, rfl, hp, hv1, hv2, fun _ => rfl,
                  fun hh => absurd rfl hh, fun hh => (by cases hh), fun hh => (by cases hh),
                  fun sv2 hh => (by cases hh; exact ⟨_, rfl⟩), hpre, htr, h1, h2, h3, h4⟩
      | null =>
        cases hdv : dueDateVal (Upd.null : Upd String) with
        | error e =>
          simp only [hdv, M.bindM, M.throw] at hrun
          subst hrun
          simp [updateTaskCalls, M.throw] at hmem
        | ok v =>
          simp only [hdv, M.bindM, M.pureM] at hrun
          cases status with
          | unset =>
            simp only [M.bindM, M.pureM] at hrun
            obtain ⟨hi, hlist, n, pre, post, hp, hv1, hv2, hpre, htr, h1, h2, h3, h4⟩ :=
              main (aset (taskFieldPayload subject description assigned_to tags) "due_date" v) [Call.getTask tid] (Or.inl rfl)
                (by simp [updateTaskCalls]) hrun hmem
            exact ⟨hi, hlist, ex, _, _, n, pre, post, rfl, hp, hv1, hv2, fun hh => (by cases hh),
              fun _ => ⟨v, rfl, rfl⟩, fun _ => rfl, fun hh => (by cases hh),
              fun sv hh => (by cases hh), hpre, htr, h1, h2, h3, h4⟩
          | null =>
            simp only [M.bindM, M.pureM] at hrun
            obtain ⟨hi, hlist, n, pre, post, hp, hv1, hv2, hpre, htr, h1, h2, h3, h4⟩ :=
              main (aset (aset (taskFieldPayload subject description assigned_to tags) "due_date" v) "status" Value.vNull) [Call.getTask tid]
                (Or.inl rfl) (by simp [updateTaskCalls]) hrun hmem
            exact ⟨hi, hlist, ex, _, _, n, pre, post, rfl, hp, hv1, hv2, fun hh => (by cases hh),
              fun _ => ⟨v, rfl, rfl⟩, fun hh => (by cases hh), fun _ => rfl,
              fun sv hh => (by cases hh), hpre, htr, h1, h2, h3, h4⟩
          | given sv =>
            cases sv with
            | sInt sn =>
              simp only [_resolve_task_status_id, M.bindM, M.pureM, M_bind_eq,
                M_pure_eq] at hrun
              obtain ⟨hi, hlist, n, pre, post, hp, hv1, hv2, hpre, htr, h1, h2, h3, h4⟩ :=
                main (aset (aset (taskFieldPayload subject description assigned_to tags) "due_date" v) "status" (optV (some (.vInt sn))))
                  [Call.getTask tid] (Or.inl rfl) (by simp [updateTaskCalls]) hrun hmem
              exact ⟨hi, hlist, ex, _, _, n, pre, post, rfl, hp, hv1, hv2, fun hh => (by cases hh),
                fun _ => ⟨v, rfl, rfl⟩, fun hh => (by cases hh), fun hh => (by cases hh),
                fun sv2 hh => (by cases hh; exact ⟨_, rfl⟩), hpre, htr, h1, h2, h3, h4⟩
            | sStr s =>
              simp only [_resolve_task_status_id, M.bindM, M.pureM, M_bind_eq,
                M_pure_eq, M.remote, M.throw, List.length_cons, List.length_nil] at hrun
              cases hls : env.listTaskStatuses 1 pid with
              | error e =>
                simp only [hls] at hrun
                subst hrun
                simp [updateTaskCalls, M.throw] at hmem
              | ok sts =>
                simp only [hls] at hrun
                cases hf : sts.find? (fun e => statusEntryMatches e s) with
                | none =>
                  simp only [hf, M.throw] at hrun
                  subst hrun
                  simp [updateTaskCalls, M.throw] at hmem
                | some entry =>
                  simp only [hf] at hrun
                  simp only [M.pureM, M.bindM, List.cons_append, List.nil_append] at hrun
                  obtain ⟨hi, hlist, n, pre, post, hp, hv1, hv2, hpre, htr,
                    h1, h2, h3, h4⟩ :=
                    main (aset (aset (taskFieldPayload subject description assigned_to tags) "due_date" v) "status" (optV (alookup entry "id")))
                      [Call.getTask tid, Call.listTaskStatuses pid] (Or.inr ⟨pid, rfl⟩)
                      (by simp [updateTaskCalls]) hrun hmem
                  exact ⟨hi, hlist, ex, _, _, n, pre, post, rfl, hp, hv1, hv2, fun hh => (by cases hh),
                    fun _ => ⟨v, rfl, rfl⟩, fun hh => (by cases hh), fun hh => (by cases hh),
                    fun sv2 hh => (by cases hh; exact ⟨_, rfl⟩), hpre, htr, h1, h2, h3, h4⟩
      | given d =>
        cases hdv : dueDateVal (Upd.given d) with
        | error e =>
          simp only [hdv, M.bindM, M.throw] at hrun
          subst hrun
          simp [updateTaskCalls, M.throw] at hmem
        | ok v =>
          simp only [hdv, M.bindM, M.pureM] at hrun
          cases status with
          | unset =>
            simp only [M.bindM, M.pureM] at hrun
            obtain ⟨hi, hlist, n, pre, post, hp, hv1, hv2, hpre, htr, h1, h2, h3, h4⟩ :=
              main (aset (taskFieldPayload subject description assigned_to tags) "due_date" v) [Call.getTask tid] (Or.inl rfl)
                (by simp [updateTaskCalls]) hrun hmem
            exact ⟨hi, hlist, ex, _, _, n, pre, post, rfl, hp, hv1, hv2, fun hh => (by cases hh),
              fun _ => ⟨v, rfl, rfl⟩, fun _ => rfl, fun hh => (by cases hh),
              fun sv hh => (by cases hh), hpre, htr, h1, h2, h3, h4⟩
          | null =>
            simp only [M.bindM, M.pureM] at hrun
            obtain ⟨hi, hlist, n, pre, post, hp, hv1, hv2, hpre, htr, h1, h2, h3, h4⟩ :=
              main (aset (aset (taskFieldPayload subject description assigned_to tags) "due_date" v) "status" Value.vNull) [Call.getTask tid]
                (Or.inl rfl) (by simp [updateTaskCalls]) hrun hmem
            exact ⟨hi, hlist, ex, _, _, n, pre, post, rfl, hp, hv1, hv2, fun hh => (by cases hh),
              fun _ => ⟨v, rfl, rfl⟩, fun hh => (by cases hh), fun _ => rfl,
              fun sv hh => (by cases hh), hpre, htr, h1, h2, h3, h4⟩
          | given sv =>
            cases sv with
            | sInt sn =>
              simp only [_resolve_task_status_id, M.bindM, M.pureM, M_bind_eq,
                M_pure_eq] at hrun
              obtain ⟨hi, hlist, n, pre, post, hp, hv1, hv2, hpre, htr, h1, h2, h3, h4⟩ :=
                main (aset (aset (taskFieldPayload subject description assigned_to tags) "due_date" v) "status" (optV (some (.vInt sn))))
                  [Call.getTask tid] (Or.inl rfl) (by simp [updateTaskCalls]) hrun hmem
              exact ⟨hi, hlist, ex, _, _, n, pre, post, rfl, hp, hv1, hv2, fun hh => (by cases hh),
                fun _ => ⟨v, rfl, rfl⟩, fun hh => (by cases hh), fun hh => (by cases hh),
                fun sv2 hh => (by cases hh; exact ⟨_, rfl⟩), hpre, htr, h1, h2, h3, h4⟩
            | sStr s =>
              simp only [_resolve_task_status_id, M.bindM, M.pureM, M_bind_eq,
                M_pure_eq, M.remote, M.throw, List.length_cons, List.length_nil] at hrun
              cases hls : env.listTaskStatuses 1 pid with
              | error e =>
                simp only [hls] at hrun
                subst hrun
                simp [updateTaskCalls, M.throw] at hmem
              | ok sts =>
                simp only [hls] at hrun
                cases hf : sts.find? (fun e => statusEntryMatches e s) with
                | none =>
                  simp only [hf, M.throw] at hrun
                  subst hrun
                  simp [updateTaskCalls, M.throw] at hmem
                | some entry =>
                  simp only [hf] at hrun
                  simp only [M.pureM, M.bindM, List.cons_append, List.nil_append] at hrun
                  obtain ⟨hi, hlist, n, pre, post, hp, hv1, hv2, hpre, htr,
                    h1, h2, h3, h4⟩ :=
                    main (aset (aset (taskFieldPayload subject description assigned_to tags) "due_date" v) "status" (optV (alookup entry "id")))
                      [Call.getTask tid, Call.listTaskStatuses pid] (Or.inr ⟨pid, rfl⟩)
                      (by simp [updateTaskCalls]) hrun hmem
                  exact ⟨hi, hlist, ex, _, _, n, pre, post, rfl, hp, hv1, hv2, fun hh => (by cases hh),
                    fun _ => ⟨v, rfl, rfl⟩, fun hh => (by cases hh), fun hh => (by cases hh),
                    fun sv2 hh => (by cases hh; exact ⟨_, rfl⟩), hpre, htr, h1, h2, h3, h4⟩

/-! ## Store and cache-key helper lemmas -/

theorem _IdempotencyStore.get_snd {α : Type} (s : _IdempotencyStore α) (key : String)
    (now : Rat) : (s.get key now).2 = s.purgeExpired now := by
  unfold _IdempotencyStore.get
  dsimp only
  cases h : alookup (s.purgeExpired now).entries key <;> simp [h]

theorem make_key_ne_empty (k : String) (usid : Int) (subj : String) :
    _make_idempotency_cache_key k usid subj ≠ "" := by
  unfold _make_idempotency_cache_key
  intro h
  have := congrArg String.length h
  simp [String.length_append] at this
  exact absurd this.1.2 (by decide)

/-- Full-run inversion of `taiga_tasks_create` with an idempotency key: a
successful run either hit the cache (returning the stored record, no create
call) or missed it, performed exactly one remote create, and stored the raw
created record under the derived cache key. -/
theorem tasks_create_inv
    (env : TaigaEnv) (now : Rat) (usid : Int) (subj : String)
    (description : Upd String) (assigned_to : Upd Int) (status : Upd StatusV)
    (tags : Upd (List String)) (due_date : Upd String)
    (k : String) (st : Store) (out : Except PyErr Rec × Store × List Call) (r : Rec)
    (hk : k ≠ "")
    (hrun : taiga_tasks_create env now usid subj description assigned_to status tags
      due_date (.given k) st [] = out)
    (hok : out.1 = .ok r) :
    ∃ story pid,
      env.getUserStory 0 usid = .ok story ∧
      (alookup story "project").bind pyInt = some pid ∧
      (((st.get (_make_idempotency_cache_key k usid subj) now).1 = some r ∧
        out = (.ok r, st.purgeExpired now, [Call.getUserStory usid])) ∨
       ((st.get (_make_idempotency_cache_key k usid subj) now).1 = none ∧
        ∃ payload pre2,
          (pre2 = [Call.getUserStory usid] ∨
            pre2 = [Call.getUserStory usid, Call.listTaskStatuses pid]) ∧
          env.createTask pre2.length payload = .ok r ∧
          out = (.ok r,
            (st.purgeExpired now).store (_make_idempotency_cache_key k usid subj) r now,
            pre2 ++ [Call.createTask payload]))) := by
  unfold taiga_tasks_create at hrun
  simp only [M_bind_eq, M.bindM, M_pure_eq, M.pureM, M.remote, M.throw, M.storeGet,
    M.storePut, List.length_nil, List.nil_append, if_neg hk] at hrun
  cases h0 : env.getUserStory 0 usid with
  | error e =>
    simp only [h0] at hrun
    subst hrun
    simp [M.throw] at hok
  | ok story =>
    simp only [h0] at hrun
    cases hpr : (alookup story "project").bind pyInt with
    | none =>
      simp only [hpr] at hrun
      subst hrun
      simp [M.throw] at hok
    | some pid =>
      simp only [hpr] at hrun
      simp only [M.bindM, M.pureM, M.storeGet, M.storePut, M.remote, M.throw,
        if_neg (make_key_ne_empty k usid subj), List.length_cons, List.length_nil,
        List.cons_append, List.nil_append] at hrun
      cases hhit : (st.get (_make_idempotency_cache_key k usid subj) now).1 with
      | some c =>
        simp only [hhit, M.pureM] at hrun
        subst hrun
        have hok2 : (Except.ok c : Except PyErr Rec) = Except.ok r := hok
        injection hok2 with hok3
        subst hok3
        exact ⟨story, pid, rfl, hpr, Or.inl ⟨rfl, by rw [_IdempotencyStore.get_snd]⟩⟩
      | none =>
        simp only [hhit, M.bindM, M.pureM, M.remote, M.storePut, List.length_cons,
          List.length_nil, List.cons_append, List.nil_append] at hrun
        cases due_date with
        | unset =>
          cases status with
          | unset =>
            dsimp only at hrun
            simp only [M_bind_eq, M_pure_eq, M.bindM, M.pureM, M.remote, M.storePut, M.throw,
              List.length_cons, List.length_nil, List.cons_append,
              List.nil_append] at hrun
            split at hrun
            · rename_i a st2 tr2 heq
              simp only [Prod.mk.injEq] at heq
              obtain ⟨hcr, hst2, htr2⟩ := heq
              subst hst2
              subst htr2
              subst hrun
              have hok2 : (Except.ok a : Except PyErr Rec) = Except.ok r := hok
              injection hok2 with hok3
              subst hok3
              refine ⟨story, pid, rfl, hpr, Or.inr ⟨rfl, _, [Call.getUserStory usid],
                Or.inl rfl, hcr, ?_⟩⟩
              rw [_IdempotencyStore.get_snd]
              rfl
            · rename_i e2 st2 tr2 heq
              simp only [Prod.mk.injEq] at heq
              obtain ⟨hcr, hst2, htr2⟩ := heq
              subst hst2
              subst htr2
              subst hrun
              exact Except.noConfusion (show (Except.error e2 : Except PyErr Rec) = Except.ok r from hok)
          | null =>
            dsimp only at hrun
            simp only [M_bind_eq, M_pure_eq, M.bindM, M.pureM, M.remote, M.storePut, M.throw,
              List.length_cons, List.length_nil, List.cons_append,
              List.nil_append] at hrun
            split at hrun
            · rename_i a st2 tr2 heq
              simp only [Prod.mk.injEq] at heq
              obtain ⟨hcr, hst2, htr2⟩ := heq
              subst hst2
              subst htr2
              subst hrun
              have hok2 : (Except.ok a : Except PyErr Rec) = Except.ok r := hok
              injection hok2 with hok3
              subst hok3
              refine ⟨story, pid, rfl, hpr, Or.inr ⟨rfl, _, [Call.getUserStory usid],
                Or.inl rfl, hcr, ?_⟩⟩
              rw [_IdempotencyStore.get_snd]
              rfl
            · rename_i e2 st2 tr2 heq
              simp only [Prod.mk.injEq] at heq
              obtain ⟨hcr, hst2, htr2⟩ := heq
              subst hst2
              subst htr2
              subst hrun
              exact Except.noConfusion (show (Except.error e2 : Except PyErr Rec) = Except.ok r from hok)
          | given sv =>
            cases sv with
            | sInt sn =>
              dsimp only [_resolve_task_status_id] at hrun
              simp only [M_bind_eq, M_pure_eq, M.bindM, M.pureM, M.remote, M.storePut, M.throw,
                List.length_cons, List.length_nil, List.cons_append,
                List.nil_append] at hrun
              split at hrun
              · rename_i a st2 tr2 heq
                simp only [Prod.mk.injEq] at heq
                obtain ⟨hcr, hst2, htr2⟩ := heq
                subst hst2
                subst htr2
                subst hrun
                have hok2 : (Except.ok a : Except PyErr Rec) = Except.ok r := hok
                injection hok2 with hok3
                subst hok3
                refine ⟨story, pid, rfl, hpr, Or.inr ⟨rfl, _, [Call.getUserStory usid],
                  Or.inl rfl, hcr, ?_⟩⟩
                rw [_IdempotencyStore.get_snd]
                rfl
              · rename_i e2 st2 tr2 heq
                simp only [Prod.mk.injEq] at heq
                obtain ⟨hcr, hst2, htr2⟩ := heq
                subst hst2
                subst htr2
                subst hrun
                exact Except.noConfusion (show (Except.error e2 : Except PyErr Rec) = Except.ok r from hok)
            | sStr s =>
              dsimp only [_resolve_task_status_id] at hrun
              simp only [M_bind_eq, M_pure_eq, M.bindM, M.pureM, M.remote, M.throw,
                List.length_cons, List.length_nil] at hrun
              cases hls : env.listTaskStatuses 1 pid with
              | error e2 =>
                rw [hls] at hrun
                simp only [M_bind_eq, M_pure_eq, M.bindM, M.pureM, M.throw] at hrun
                subst hrun
                simp [M.throw] at hok
              | ok sts =>
                simp only [hls] at hrun
                cases hf : sts.find? (fun e => statusEntryMatches e s) with
                | none =>
                  rw [hf] at hrun
                  simp only [M_bind_eq, M_pure_eq, M.bindM, M.pureM, M.throw] at hrun
                  subst hrun
                  simp [M.throw] at hok
                | some entry =>
                  simp only [hf, M.bindM, M.pureM, List.cons_append, List.nil_append] at hrun
                  split at hrun
                  · rename_i a st2 tr2 heq
                    simp only [Prod.mk.injEq] at heq
                    obtain ⟨hcr, hst2, htr2⟩ := heq
                    subst hst2
                    subst htr2
                    subst hrun
                    have hok2 : (Except.ok a : Except PyErr Rec) = Except.ok r := hok
                    injection hok2 with hok3
                    subst hok3
                    refine ⟨story, pid, rfl, hpr, Or.inr ⟨rfl, _, [Call.getUserStory usid, Call.listTaskStatuses pid],
                      Or.inr rfl, hcr, ?_⟩⟩
                    rw [_IdempotencyStore.get_snd]
                    rfl
                  · rename_i e2 st2 tr2 heq
                    simp only [Prod.mk.injEq] at heq
                    obtain ⟨hcr, hst2, htr2⟩ := heq
                    subst hst2
                    subst htr2
                    subst hrun
                    exact Except.noConfusion (show (Except.error e2 : Except PyErr Rec) = Except.ok r from hok)
        | null =>
          cases hdv : dueDateVal (Upd.null : Upd String) with
          | error e2 =>
            simp only [hdv, M.bindM, M.throw, M.pureM] at hrun
            subst hrun
            exact Except.noConfusion (show (Except.error e2 : Except PyErr Rec) = Except.ok r from hok)
          | ok v =>
            simp only [hdv, M.bindM, M.pureM] at hrun
            cases status with
            | unset =>
              dsimp only at hrun
              simp only [M_bind_eq, M_pure_eq, M.bindM, M.pureM, M.remote, M.storePut, M.throw,
                List.length_cons, List.length_nil, List.cons_append,
                List.nil_append] at hrun
              split at hrun
              · rename_i a st2 tr2 heq
                simp only [Prod.mk.injEq] at heq
                obtain ⟨hcr, hst2, htr2⟩ := heq
                subst hst2
                subst htr2
                subst hrun
                have hok2 : (Except.ok a : Except PyErr Rec) = Except.ok r := hok
                injection hok2 with hok3
                subst hok3
                refine ⟨story, pid, rfl, hpr, Or.inr ⟨rfl, _, [Call.getUserStory usid],
                  Or.inl rfl, hcr, ?_⟩⟩
                rw [_IdempotencyStore.get_snd]
                rfl
              · rename_i e2 st2 tr2 heq
                simp only [Prod.mk.injEq] at heq
                obtain ⟨hcr, hst2, htr2⟩ := heq
                subst hst2
                subst htr2
                subst hrun
                exact Except.noConfusion (show (Except.error e2 : Except PyErr Rec) = Except.ok r from hok)
            | null =>
              dsimp only at hrun
              simp only [M_bind_eq, M_pure_eq, M.bindM, M.pureM, M.remote, M.storePut, M.throw,
                List.length_cons, List.length_nil, List.cons_append,
                List.nil_append] at hrun
              split at hrun
              · rename_i a st2 tr2 heq
                simp only [Prod.mk.injEq] at heq
                obtain ⟨hcr, hst2, htr2⟩ := heq
                subst hst2
                subst htr2
                subst hrun
                have hok2 : (Except.ok a : Except PyErr Rec) = Except.ok r := hok
                injection hok2 with hok3
                subst hok3
                refine ⟨story, pid, rfl, hpr, Or.inr ⟨rfl, _, [Call.getUserStory usid],
                  Or.inl rfl, hcr, ?_⟩⟩
                rw [_IdempotencyStore.get_snd]
                rfl
              · rename_i e2 st2 tr2 heq
                simp only [Prod.mk.injEq] at heq
                obtain ⟨hcr, hst2, htr2⟩ := heq
                subst hst2
                subst htr2
                subst hrun
                exact Except.noConfusion (show (Except.error e2 : Except PyErr Rec) = Except.ok r from hok)
            | given sv =>
              cases sv with
              | sInt sn =>
                dsimp only [_resolve_task_status_id] at hrun
                simp only [M_bind_eq, M_pure_eq, M.bindM, M.pureM, M.remote, M.storePut, M.throw,
                  List.length_cons, List.length_nil, List.cons_append,
                  List.nil_append] at hrun
                split at hrun
                · rename_i a st2 tr2 heq
                  simp only [Prod.mk.injEq] at heq
                  obtain ⟨hcr, hst2, htr2⟩ := heq
                  subst hst2
                  subst htr2
                  subst hrun
                  have hok2 : (Except.ok a : Except PyErr Rec) = Except.ok r := hok
                  injection hok2 with hok3
                  subst hok3
                  refine ⟨story, pid, rfl, hpr, Or.inr ⟨rfl, _, [Call.getUserStory usid],
                    Or.inl rfl, hcr, ?_⟩⟩
                  rw [_IdempotencyStore.get_snd]
                  rfl
                · rename_i e2 st2 tr2 heq
                  simp only [Prod.mk.injEq] at heq
                  obtain ⟨hcr, hst2, htr2⟩ := heq
                  subst hst2
                  subst htr2
                  subst hrun
                  exact Except.noConfusion (show (Except.error e2 : Except PyErr Rec) = Except.ok r from hok)
              | sStr s =>
                dsimp only [_resolve_task_status_id] at hrun
                simp only [M_bind_eq, M_pure_eq, M.bindM, M.pureM, M.remote, M.throw,
                  List.length_cons, List.length_nil] at hrun
                cases hls : env.listTaskStatuses 1 pid with
                | error e2 =>
                  rw [hls] at hrun
                  simp only [M_bind_eq, M_pure_eq, M.bindM, M.pureM, M.throw] at hrun
                  subst hrun
                  simp [M.throw] at hok
                | ok sts =>
                  simp only [hls] at hrun
                  cases hf : sts.find? (fun e => statusEntryMatches e s) with
                  | none =>
                    rw [hf] at hrun
                    simp only [M_bind_eq, M_pure_eq, M.bindM, M.pureM, M.throw] at hrun
                    subst hrun
                    simp [M.throw] at hok
                  | some entry =>
                    simp only [hf, M.bindM, M.pureM, List.cons_append, List.nil_append] at hrun
                    split at hrun
                    · rename_i a st2 tr2 heq
                      simp only [Prod.mk.injEq] at heq
                      obtain ⟨hcr, hst2, htr2⟩ := heq
                      subst hst2
                      subst htr2
                      subst hrun
                      have hok2 : (Except.ok a : Except PyErr Rec) = Except.ok r := hok
                      injection hok2 with hok3
                      subst hok3
                      refine ⟨story, pid, rfl, hpr, Or.inr ⟨rfl, _, [Call.getUserStory usid, Call.listTaskStatuses pid],
                        Or.inr rfl, hcr, ?_⟩⟩
                      rw [_IdempotencyStore.get_snd]
                      rfl
                    · rename_i e2 st2 tr2 heq
                      simp only [Prod.mk.injEq] at heq
                      obtain ⟨hcr, hst2, htr2⟩ := heq
                      subst hst2
                      subst htr2
                      subst hrun
                      exact Except.noConfusion (show (Except.error e2 : Except PyErr Rec) = Except.ok r from hok)
        | given d =>
          cases hdv : dueDateVal (Upd.given d) with
          | error e2 =>
            simp only [hdv, M.bindM, M.throw, M.pureM] at hrun
            subst hrun
            exact Except.noConfusion (show (Except.error e2 : Except PyErr Rec) = Except.ok r from hok)
          | ok v =>
            simp only [hdv, M.bindM, M.pureM] at hrun
            cases status with
            | unset =>
              dsimp only at hrun
              simp only [M_bind_eq, M_pure_eq, M.bindM, M.pureM, M.remote, M.storePut, M.throw,
                List.length_cons, List.length_nil, List.cons_append,
                List.nil_append] at hrun
              split at hrun
              · rename_i a st2 tr2 heq
                simp only [Prod.mk.injEq] at heq
                obtain ⟨hcr, hst2, htr2⟩ := heq
                subst hst2
                subst htr2
                subst hrun
                have hok2 : (Except.ok a : Except PyErr Rec) = Except.ok r := hok
                injection hok2 with hok3
                subst hok3
                refine ⟨story, pid, rfl, hpr, Or.inr ⟨rfl, _, [Call.getUserStory usid],
                  Or.inl rfl, hcr, ?_⟩⟩
                rw [_IdempotencyStore.get_snd]
                rfl
              · rename_i e2 st2 tr2 heq
                simp only [Prod.mk.injEq] at heq
                obtain ⟨hcr, hst2, htr2⟩ := heq
                subst hst2
                subst htr2
                subst hrun
                exact Except.noConfusion (show (Except.error e2 : Except PyErr Rec) = Except.ok r from hok)
            | null =>
              dsimp only at hrun
              simp only [M_bind_eq, M_pure_eq, M.bindM, M.pureM, M.remote, M.storePut, M.throw,
                List.length_cons, List.length_nil, List.cons_append,
                List.nil_append] at hrun
              split at hrun
              · rename_i a st2 tr2 heq
                simp only [Prod.mk.injEq] at heq
                obtain ⟨hcr, hst2, htr2⟩ := heq
                subst hst2
                subst htr2
                subst hrun
                have hok2 : (Except.ok a : Except PyErr Rec) = Except.ok r := hok
                injection hok2 with hok3
                subst hok3
                refine ⟨story, pid, rfl, hpr, Or.inr ⟨rfl, _, [Call.getUserStory usid],
                  Or.inl rfl, hcr, ?_⟩⟩
                rw [_IdempotencyStore.get_snd]
                rfl
              · rename_i e2 st2 tr2 heq
                simp only [Prod.mk.injEq] at heq
                obtain ⟨hcr, hst2, htr2⟩ := heq
                subst hst2
                subst htr2
                subst hrun
                exact Except.noConfusion (show (Except.error e2 : Except PyErr Rec) = Except.ok r from hok)
            | given sv =>
              cases sv with
              | sInt sn =>
                dsimp only [_resolve_task_status_id] at hrun
                simp only [M_bind_eq, M_pure_eq, M.bindM, M.pureM, M.remote, M.storePut, M.throw,
                  List.length_cons, List.length_nil, List.cons_append,
                  List.nil_append] at hrun
                split at hrun
                · rename_i a st2 tr2 heq
                  simp only [Prod.mk.injEq] at heq
                  obtain ⟨hcr, hst2, htr2⟩ := heq
                  subst hst2
                  subst htr2
                  subst hrun
                  have hok2 : (Except.ok a : Except PyErr Rec) = Except.ok r := hok
                  injection hok2 with hok3
                  subst hok3
                  refine ⟨story, pid, rfl, hpr, Or.inr ⟨rfl, _, [Call.getUserStory usid],
                    Or.inl rfl, hcr, ?_⟩⟩
                  rw [_IdempotencyStore.get_snd]
                  rfl
                · rename_i e2 st2 tr2 heq
                  simp only [Prod.mk.injEq] at heq
                  obtain ⟨hcr, hst2, htr2⟩ := heq
                  subst hst2
                  subst htr2
                  subst hrun
                  exact Except.noConfusion (show (Except.error e2 : Except PyErr Rec) = Except.ok r from hok)
              | sStr s =>
                dsimp only [_resolve_task_status_id] at hrun
                simp only [M_bind_eq, M_pure_eq, M.bindM, M.pureM, M.remote, M.throw,
                  List.length_cons, List.length_nil] at hrun
                cases hls : env.listTaskStatuses 1 pid with
                | error e2 =>
                  rw [hls] at hrun
                  simp only [M_bind_eq, M_pure_eq, M.bindM, M.pureM, M.throw] at hrun
                  subst hrun
                  simp [M.throw] at hok
                | ok sts =>
                  simp only [hls] at hrun
                  cases hf : sts.find? (fun e => statusEntryMatches e s) with
                  | none =>
                    rw [hf] at hrun
                    simp only [M_bind_eq, M_pure_eq, M.bindM, M.pureM, M.throw] at hrun
                    subst hrun
                    simp [M.throw] at hok
                  | some entry =>
                    simp only [hf, M.bindM, M.pureM, List.cons_append, List.nil_append] at hrun
                    split at hrun
                    · rename_i a st2 tr2 heq
                      simp only [Prod.mk.injEq] at heq
                      obtain ⟨hcr, hst2, htr2⟩ := heq
                      subst hst2
                      subst htr2
                      subst hrun
                      have hok2 : (Except.ok a : Except PyErr Rec) = Except.ok r := hok
                      injection hok2 with hok3
                      subst hok3
                      refine ⟨story, pid, rfl, hpr, Or.inr ⟨rfl, _, [Call.getUserStory usid, Call.listTaskStatuses pid],
                        Or.inr rfl, hcr, ?_⟩⟩
                      rw [_IdempotencyStore.get_snd]
                      rfl
                    · rename_i e2 st2 tr2 heq
                      simp only [Prod.mk.injEq] at heq
                      obtain ⟨hcr, hst2, htr2⟩ := heq
                      subst hst2
                      subst htr2
                      subst hrun
                      exact Except.noConfusion (show (Except.error e2 : Except PyErr Rec) = Except.ok r from hok)

/-- Forward run of `taiga_tasks_create` on a cache hit: the handler fetches
the story, checks the store, and returns the cached record without building
a payload or calling create. -/
theorem tasks_create_cache_hit
    (env : TaigaEnv) (now : Rat) (usid : Int) (subj : String)
    (description : Upd String) (assigned_to : Upd Int) (status : Upd StatusV)
    (tags : Upd (List String)) (due_date : Upd String)
    (k : String) (st : Store) (story : Rec) (pid : Int) (c : Rec)
    (h0 : env.getUserStory 0 usid = .ok story)
    (hpr : (alookup story "project").bind pyInt = some pid)
    (hk : k ≠ "")
    (hhit : (st.get (_make_idempotency_cache_key k usid subj) now).1 = some c) :
    taiga_tasks_create env now usid subj description assigned_to status tags due_date
      (.given k) st [] = (.ok c, st.purgeExpired now, [Call.getUserStory usid]) := by
  unfold taiga_tasks_create
  simp only [M_bind_eq, M.bindM, M_pure_eq, M.pureM, M.remote, M.throw, M.storeGet,
    M.storePut, List.length_nil, List.nil_append, if_neg hk, h0, hpr, hhit,
    _IdempotencyStore.get_snd]

/-! ## Filtered-lookup lemmas (purge interaction) -/

theorem acontains_filter_false {β : Type} (l : List (String × β)) (k : String)
    (pred : String × β → Bool) (hc : acontains l k = false) :
    acontains (l.filter pred) k = false := by
  rw [acontains_false_iff] at hc ⊢
  intro p hp
  exact hc p (List.mem_of_mem_filter hp)

theorem alookup_filter_aset_pos {β : Type} (l : List (String × β)) (k : String) (v : β)
    (pred : String × β → Bool) (hp : pred (k, v) = true) :
    alookup ((aset l k v).filter pred) k = some v := by
  unfold aset
  by_cases hc : acontains l k
  · simp only [hc, if_true]
    induction l with
    | nil => simp [acontains] at hc
    | cons p t ih =>
      by_cases hpk : p.1 = k
      · simp [hpk, List.filter_cons, hp, alookup_cons]
      · have hc' : acontains t k = true := by simpa [acontains, hpk] using hc
        by_cases hkeep : pred p = true <;>
          simp [hpk, List.filter_cons, hkeep, alookup_cons, ih hc']
  · simp only [Bool.not_eq_true] at hc
    simp only [hc, Bool.false_eq_true, if_false]
    rw [List.filter_append]
    simp only [List.filter_cons, hp, List.filter_nil]
    exact alookup_append_single (l.filter pred) k v (acontains_filter_false l k pred hc)

theorem alookup_filter_aset_neg {β : Type} (l : List (String × β)) (k : String) (v : β)
    (pred : String × β → Bool) (hp : pred (k, v) = false) :
    alookup ((aset l k v).filter pred) k = none := by
  unfold aset
  by_cases hc : acontains l k
  · simp only [hc, if_true]
    clear hc
    induction l with
    | nil => rfl
    | cons p t ih =>
      by_cases hpk : p.1 = k
      · simp [hpk, List.filter_cons, hp, ih]
      · by_cases hkeep : pred p = true <;>
          simp [hpk, List.filter_cons, hkeep, alookup_cons, ih]
  · simp only [Bool.not_eq_true] at hc
    simp only [hc, Bool.false_eq_true, if_false]
    rw [List.filter_append]
    simp only [List.filter_cons, hp, Bool.false_eq_true, if_false, List.filter_nil,
      List.append_nil]
    rw [alookup_eq_none_iff]
    exact fun p hq => (acontains_false_iff l k).1 hc p (List.mem_of_mem_filter hq)

theorem alookup_filter_aset_ne {β : Type} (l : List (String × β)) (k : String) (v : β)
    (k' : String) (h : k' ≠ k) (pred : String × β → Bool) :
    alookup ((aset l k v).filter pred) k' = alookup (l.filter pred) k' := by
  unfold aset
  by_cases hc : acontains l k
  · simp only [hc, if_true]
    clear hc
    induction l with
    | nil => rfl
    | cons p t ih =>
      by_cases hpk : p.1 = k
      · have h1 : ¬ (k = k') := fun hh => h hh.symm
        have h2 : ¬ (p.1 = k') := by rw [hpk]; exact h1
        by_cases hkeep1 : pred (k, v) = true <;> by_cases hkeep2 : pred p = true <;>
          simp [hpk, List.filter_cons, hkeep1, hkeep2, alookup_cons, h1, h2, ih]
      · by_cases hkeep : pred p = true <;>
          simp [hpk, List.filter_cons, hkeep, alookup_cons, ih]
  · simp only [Bool.not_eq_true] at hc
    simp only [hc, Bool.false_eq_true, if_false]
    rw [List.filter_append]
    simp only [List.filter_cons, List.filter_nil]
    by_cases hkeep : pred (k, v) = true
    · rw [hkeep, if_pos rfl]
      rw [alookup_append]
      have h1 : ¬ (k = k') := fun hh => h hh.symm
      cases hl : alookup (l.filter pred) k' <;> simp [alookup_cons, alookup_nil, h1]
    · simp only [Bool.not_eq_true] at hkeep
      simp [hkeep]

theorem alookup_filter_filter_none {β : Type} (l : List (String × β)) (k : String)
    (p q : String × β → Bool) (h : alookup (l.filter q) k = none) :
    alookup ((l.filter p).filter q) k = none := by
  rw [alookup_eq_none_iff] at h ⊢
  intro e he
  have h1 : e ∈ l.filter p ∧ q e := List.mem_filter.1 he
  have h2 : e ∈ l ∧ p e := List.mem_filter.1 h1.1
  exact h e (List.mem_filter.2 ⟨h2.1, h1.2⟩)

/-! ## Field-projector lemmas -/

theorem alookup_slice_aux (record : Rec) (keys : List String) (acc : Rec) (k : String) :
    alookup (keys.foldl (fun acc k =>
      match alookup record k with
      | some v => aset acc k v
      | none => acc) acc) k =
    if k ∈ keys ∧ (alookup record k).isSome then alookup record k else alookup acc k := by
  induction keys generalizing acc with
  | nil => simp
  | cons a t ih =>
    simp only [List.foldl_cons]
    cases hr : alookup record a with
    | none =>
      rw [ih]
      by_cases hk : k = a
      · subst hk
        simp [hr]
      · simp [List.mem_cons, hk]
    | some v =>
      rw [ih]
      by_cases hk : k = a
      · subst hk
        by_cases hmem : k ∈ t
        · simp [hmem, hr]
        · simp [hmem, hr, alookup_aset_self]
      · simp [List.mem_cons, hk, alookup_aset_ne _ _ _ _ hk]

theorem mem_slice_aux (record : Rec) (keys : List String) (acc : Rec) :
    ∀ p ∈ keys.foldl (fun acc k =>
      match alookup record k with
      | some v => aset acc k v
      | none => acc) acc,
      (p.1 ∈ keys ∧ alookup record p.1 = some p.2) ∨ p ∈ acc := by
  induction keys generalizing acc with
  | nil => exact fun p hp => Or.inr hp
  | cons a t ih =>
    intro p hp
    simp only [List.foldl_cons] at hp
    cases hr : alookup record a with
    | none =>
      rw [hr] at hp
      rcases ih acc p hp with ⟨h1, h2⟩ | h
      · exact Or.inl ⟨List.mem_cons_of_mem a h1, h2⟩
      · exact Or.inr h
    | some v =>
      rw [hr] at hp
      rcases ih (aset acc a v) p hp with ⟨h1, h2⟩ | h
      · exact Or.inl ⟨List.mem_cons_of_mem a h1, h2⟩
      · rcases mem_aset acc a v p h with rfl | h2
        · exact Or.inl ⟨List.mem_cons_self a t, hr⟩
        · exact Or.inr h2

/-- Claim C9: the field projection `_slice(record, keys)` contains exactly
the entries of `record` whose key is in the allow-list and present in
`record`: lookups in the result agree with `record` on allowed keys and are
absent otherwise, and every entry of the result is a genuine entry of
`record` under an allowed key (allowed keys missing from `record` are
simply absent — no null filling).  `_slice` is a total Lean function, so it
has no failure mode. -/
theorem C9_slice_projection (record : Rec) (keys : List String) :
    (∀ k, alookup (_slice record keys) k =
      if k ∈ keys then alookup record k else none) ∧
    (∀ p ∈ _slice record keys, p.1 ∈ keys ∧ alookup record p.1 = some p.2) := by
  constructor
  · intro k
    unfold _slice
    rw [alookup_slice_aux]
    by_cases hk : k ∈ keys
    · cases hr : alookup record k <;> simp [hk, hr, alookup_nil]
    · simp [hk, alookup_nil]
  · intro p hp
    unfold _slice at hp
    rcases mem_slice_aux record keys [] p hp with h | h
    · exact h
    · simp at h

/-! ## Claim C7: idempotency-store TTL -/

theorem ttl_cast {α : Type} (s : _IdempotencyStore α) (h : s.ttl_seconds = 24 * 60 * 60) :
    ((s.ttl_seconds : Int) : Rat) = 86400 := by
  rw [h]; norm_num

/-- Claim C7: with the default 24-hour TTL, an entry stored at time `T` is
returned by `get` at any time `t < T + 86400` and is gone (a cache miss,
the entry purged) at any `t ≥ T + 86400`; moreover both `get` and `store`
purge every expired entry before acting (their resulting stores contain no
entry whose expiry has passed). -/
theorem C7_store_ttl (s : Store) (k : String) (v : Rec) (T t : Rat)
    (httl : s.ttl_seconds = 24 * 60 * 60) :
    (t < T + 86400 → ((s.store k v T).get k t).1 = some v) ∧
    (T + 86400 ≤ t → ((s.store k v T).get k t).1 = none) ∧
    (∀ e ∈ ((s.get k t).2).entries, t < e.2.1) ∧
    (∀ e ∈ (s.store k v T).entries, T < e.2.1) := by
  have hc : ((s.ttl_seconds : Int) : Rat) = 86400 := ttl_cast s httl
  refine ⟨?_, ?_, ?_, ?_⟩
  · intro hlt
    unfold _IdempotencyStore.store _IdempotencyStore.get _IdempotencyStore.purgeExpired
    dsimp only
    rw [hc]
    rw [alookup_filter_aset_pos _ _ _ _ (by simpa using hlt)]
  · intro hge
    unfold _IdempotencyStore.store _IdempotencyStore.get _IdempotencyStore.purgeExpired
    dsimp only
    rw [hc]
    rw [alookup_filter_aset_neg _ _ _ _ (by simpa using hge)]
  · intro e he
    rw [_IdempotencyStore.get_snd] at he
    unfold _IdempotencyStore.purgeExpired at he
    have h2 : e ∈ s.entries ∧ t < e.2.1 := by simpa using he
    exact h2.2
  · intro e he
    unfold _IdempotencyStore.store _IdempotencyStore.purgeExpired at he
    dsimp only at he
    rw [hc] at he
    rcases mem_aset _ _ _ _ he with rfl | hmem
    · norm_num
    · have h2 : e ∈ s.entries ∧ T < e.2.1 := by simpa using hmem
      exact h2.2

/-- Witness for C7 at a concrete store, key, record and times. -/
theorem C7_store_ttl_witness :
    ((stT.store "k" [("a", Value.vInt 1)] 0).get "k" 5).1 = some [("a", Value.vInt 1)] ∧
    ((stT.store "k" [("a", Value.vInt 1)] 0).get "k" 86400).1 = none :=
  ⟨(C7_store_ttl stT "k" [("a", Value.vInt 1)] 0 5 rfl).1 (by norm_num),
   (C7_store_ttl stT "k" [("a", Value.vInt 1)] 0 86400 rfl).2.1 (by norm_num)⟩

/-! ## Claim C8: status resolution -/

/-- Counterexample to claim C8 as stated: the no-match failure messages are
`Status '<s>' not found for project <p>` (user stories, capital S) and
`Task status '<s>' not found for project <p>` (tasks), not the claimed
`status '<s>' not found for project <p>`. -/
theorem C8_counterexample :
    _resolve_user_story_status_id envT 3 (some (.sStr "foo")) stT [] =
      (.error (.taigaAPIError none "Status \x27foo\x27 not found for project 3"), stT,
        [Call.listUserStoryStatuses 3]) ∧
    "Status \x27foo\x27 not found for project 3" ≠
      "status \x27foo\x27 not found for project 3" ∧
    _resolve_task_status_id envT 3 (some (.sStr "doing-nonexistent")) stT [] =
      (.error (.taigaAPIError none
        "Task status \x27doing-nonexistent\x27 not found for project 3"), stT,
        [Call.listTaskStatuses 3]) ∧
    "Task status \x27doing-nonexistent\x27 not found for project 3" ≠
      "status \x27doing-nonexistent\x27 not found for project 3" := by
  refine ⟨rfl, by decide, rfl, by decide⟩

/-- Claim C8 (amended): status resolution returns `None` for a `None`
status, returns an integer status unchanged with no remote call, and for a
string status performs one status-listing call and returns the id of the
first entry (in listing order) whose name or slug equals the string; when
no entry matches it raises `TaigaAPIError` with message
`Status '<s>' not found for project <p>` (user stories) respectively
`Task status '<s>' not found for project <p>` (tasks). -/
theorem C8_status_resolution (env : TaigaEnv) (pid : Int) (st : Store) (tr : List Call) :
    (_resolve_user_story_status_id env pid none st tr = (.ok none, st, tr)) ∧
    (∀ n, _resolve_user_story_status_id env pid (some (.sInt n)) st tr =
      (.ok (some (.vInt n)), st, tr)) ∧
    (∀ s sts, env.listUserStoryStatuses tr.length pid = .ok sts →
      _resolve_user_story_status_id env pid (some (.sStr s)) st tr =
        (match sts.find? (fun e => statusEntryMatches e s) with
         | some entry => (.ok (alookup entry "id"), st, tr ++ [Call.listUserStoryStatuses pid])
         | none => (.error (.taigaAPIError none
             ("Status \x27" ++ s ++ "\x27 not found for project " ++ toString pid)), st,
             tr ++ [Call.listUserStoryStatuses pid]))) ∧
    (_resolve_task_status_id env pid none st tr = (.ok none, st, tr)) ∧
    (∀ n, _resolve_task_status_id env pid (some (.sInt n)) st tr =
      (.ok (some (.vInt n)), st, tr)) ∧
    (∀ s sts, env.listTaskStatuses tr.length pid = .ok sts →
      _resolve_task_status_id env pid (some (.sStr s)) st tr =
        (match sts.find? (fun e => statusEntryMatches e s) with
         | some entry => (.ok (alookup entry "id"), st, tr ++ [Call.listTaskStatuses pid])
         | none => (.error (.taigaAPIError none
             ("Task status \x27" ++ s ++ "\x27 not found for project " ++ toString pid)), st,
             tr ++ [Call.listTaskStatuses pid]))) := by
  refine ⟨rfl, fun n => rfl, ?_, rfl, fun n => rfl, ?_⟩
  · intro s sts hls
    unfold _resolve_user_story_status_id
    simp only [M_bind_eq, M.bindM, M_pure_eq, M.pureM, M.remote, M.throw, hls]
    cases sts.find? (fun e => statusEntryMatches e s) <;> rfl
  · intro s sts hls
    unfold _resolve_task_status_id
    simp only [M_bind_eq, M.bindM, M_pure_eq, M.pureM, M.remote, M.throw, hls]
    cases sts.find? (fun e => statusEntryMatches e s) <;> rfl

/-- Witness for C8 (amended): resolving `Doing` against the fixture task
statuses returns id 21 after one listing call; an integer passes through
with no call. -/
theorem C8_status_resolution_witness :
    _resolve_task_status_id envT 3 (some (.sStr "Doing")) stT [] =
      (.ok (some (.vInt 21)), stT, [Call.listTaskStatuses 3]) ∧
    _resolve_task_status_id envT 3 (some (.sInt 7)) stT [] = (.ok (some (.vInt 7)), stT, []) := by
  constructor
  · have h := (C8_status_resolution envT 3 stT []).2.2.2.2.2 "Doing"
      [[("id", .vInt 21), ("name", .vStr "Doing"), ("slug", .vStr "doing")]] rfl
    simpa using h
  · exact (C8_status_resolution envT 3 stT []).2.2.2.2.1 7

/-! ## Claim C10: the idempotency store never aliases caller records -/

/-- Claim C10: `store` snapshots the caller record (`dict(value)`) and `get`
hands back a freshly allocated copy, so mutating the caller record after
`store`, and mutating the record returned by `get`, leave the store and all
later `get` results unchanged.  Concretely: after storing the record at
address `a` (content `o`) and then overwriting `a` with `o2`, a `get`
within the TTL allocates a fresh address (distinct from `a`) whose content
is still `o`; overwriting that returned object with `o3` and getting again
still yields content `o`. -/
theorem C10_store_no_alias
    (s : _IdempotencyStore HObj) (h : Heap) (k : String) (a : Nat) (o : HObj)
    (now t t2 : Rat) (o2 o3 : HObj)
    (httl : s.ttl_seconds = 24 * 60 * 60)
    (ha : heapGet h a = some o)
    (ht : t < now + 86400) (ht2 : t2 < now + 86400) :
    hstoreStore s h k a now = s.store k o now ∧
    hstoreGet (s.store k o now) (heapSet h a o2) k t =
      (some h.length, (s.store k o now).purgeExpired t, heapSet h a o2 ++ [o]) ∧
    a ≠ h.length ∧
    heapGet (heapSet h a o2 ++ [o]) h.length = some o ∧
    hstoreGet ((s.store k o now).purgeExpired t)
        (heapSet (heapSet h a o2 ++ [o]) h.length o3) k t2 =
      (some (h.length + 1), ((s.store k o now).purgeExpired t).purgeExpired t2,
        heapSet (heapSet h a o2 ++ [o]) h.length o3 ++ [o]) ∧
    heapGet (heapSet (heapSet h a o2 ++ [o]) h.length o3 ++ [o]) (h.length + 1) = some o := by
  have hc : ((s.ttl_seconds : Int) : Rat) = 86400 := ttl_cast s httl
  have halt : a < h.length := (List.getElem?_eq_some.mp ha).1
  have hane : a ≠ h.length := Nat.ne_of_lt halt
  have hget1 : ((s.store k o now).get k t).1 = some o := by
    unfold _IdempotencyStore.store _IdempotencyStore.get _IdempotencyStore.purgeExpired
    dsimp only
    rw [hc]
    rw [alookup_filter_aset_pos _ _ _ _ (by simpa using ht)]
  have hget2 : (((s.store k o now).purgeExpired t).get k t2).1 = some o := by
    unfold _IdempotencyStore.store _IdempotencyStore.get _IdempotencyStore.purgeExpired
    dsimp only
    rw [hc]
    rw [List.filter_filter]
    rw [alookup_filter_aset_pos _ _ _ _ ?_]
    simp only [decide_eq_true_eq, Bool.and_eq_true, decide_eq_true_eq]
    exact ⟨by simpa using ht2, by simpa using ht⟩
  refine ⟨?_, ?_, hane, ?_, ?_, ?_⟩
  · unfold hstoreStore
    rw [ha]
  · unfold hstoreGet heapAlloc
    rw [show ((s.store k o now).get k t) = (((s.store k o now).get k t).1,
      ((s.store k o now).get k t).2) from rfl]
    rw [hget1, _IdempotencyStore.get_snd]
    simp [heapSet, List.length_set]
  · unfold heapGet heapSet
    rw [show h.length = (List.set h a o2).length from (List.length_set h a o2).symm]
    exact List.getElem?_concat_length _ _
  · unfold hstoreGet heapAlloc
    rw [show (((s.store k o now).purgeExpired t).get k t2) =
      ((((s.store k o now).purgeExpired t).get k t2).1,
       (((s.store k o now).purgeExpired t).get k t2).2) from rfl]
    rw [hget2, _IdempotencyStore.get_snd]
    simp [heapSet, List.length_set, List.length_append]
  · unfold heapGet heapSet
    have : (List.set (heapSet h a o2 ++ [o]) h.length o3).length = h.length + 1 := by
      simp [heapSet, List.length_set, List.length_append]
    rw [show h.length + 1 = (List.set (heapSet h a o2 ++ [o]) h.length o3).length from
      this.symm]
    exact List.getElem?_concat_length _ _

/-- Witness for C10 at concrete store, heap, key and times. -/
theorem C10_store_no_alias_witness :
    hstoreStore (_IdempotencyStore.init HObj) [[("x", HValue.hInt 1)]] "k" 0 0 =
      (_IdempotencyStore.init HObj).store "k" [("x", HValue.hInt 1)] 0 ∧
    heapGet (heapSet [[("x", HValue.hInt 1)]] 0 [("x", HValue.hInt 2)] ++
      [[("x", HValue.hInt 1)]]) 1 = some [("x", HValue.hInt 1)] := by
  have h := C10_store_no_alias (_IdempotencyStore.init HObj) [[("x", HValue.hInt 1)]]
    "k" 0 [("x", HValue.hInt 1)] 0 1 2 [("x", HValue.hInt 2)] [("x", HValue.hInt 3)]
    rfl rfl (by norm_num) (by norm_num)
  exact ⟨h.1, by simpa using h.2.2.2.1⟩

/-! ## Claim C4: all-UNSET update validation -/

/-- Counterexample to claim C4 as stated: with every updatable field UNSET
the handler does raise the at-least-one-field validation error, but only
after performing the pre-update fetch — the call trace is
`[getUserStory 5]`, not empty, so a remote call is made before validation. -/
theorem C4_counterexample :
    taiga_stories_update envT 5 .unset .unset .unset .unset .unset .unset .unset .unset
      .unset stT [] =
      (.error (.valueError "At least one field must be provided to update the story"), stT,
        [Call.getUserStory 5]) ∧
    ([Call.getUserStory 5] : List Call) ≠ [] := by
  exact ⟨rfl, by simp⟩

/-- Claim C4 (amended): a story or task update in which every updatable
field is UNSET fails with the `ValueError` stating that at least one field
must be provided, and no submit is ever made; however the validation
happens only after the initial fetch of the current record, so exactly that
one remote read appears in the trace (here stated for runs whose fetch
succeeds and yields a resolvable project; a failing fetch propagates its
own error instead). -/
theorem C4_all_unset_validation (env : TaigaEnv) (sid tid : Int) (st : Store)
    (ex ext : Rec) (pid pidt : Int)
    (h0 : env.getUserStory 0 sid = .ok ex)
    (hp : (alookup ex "project").bind pyInt = some pid)
    (h0t : env.getTask 0 tid = .ok ext)
    (hpt : (alookup ext "project").bind pyInt = some pidt) :
    taiga_stories_update env sid .unset .unset .unset .unset .unset .unset .unset .unset
      .unset st [] =
      (.error (.valueError "At least one field must be provided to update the story"), st,
        [Call.getUserStory sid]) ∧
    taiga_tasks_update env tid .unset .unset .unset .unset .unset .unset .unset
      st [] =
      (.error (.valueError "At least one field must be provided to update the task"), st,
        [Call.getTask tid]) := by
  constructor
  · exact stories_update_all_unset env sid st ex pid h0 hp
  · unfold taiga_tasks_update
    simp [M_bind_eq, M.bindM, M.remote, M_pure_eq, M.pureM, M.throw, h0t, hpt,
      taskHasUpdates, Upd.isSet]

/-- Witness for C4 (amended) at the concrete fixture environment. -/
theorem C4_all_unset_validation_witness :
    taiga_stories_update envT 7 .unset .unset .unset .unset .unset .unset .unset .unset
      .unset stT [] =
      (.error (.valueError "At least one field must be provided to update the story"), stT,
        [Call.getUserStory 7]) ∧
    taiga_tasks_update envT 7 .unset .unset .unset .unset .unset .unset .unset
      stT [] =
      (.error (.valueError "At least one field must be provided to update the task"), stT,
        [Call.getTask 7]) :=
  C4_all_unset_validation envT 7 7 stT
    [("id", .vInt 7), ("project", .vInt 3), ("version", .vInt 2)]
    [("id", .vInt 7), ("project", .vInt 3), ("version", .vInt 2)] 3 3 rfl rfl rfl rfl

/-! ## Claims C5 and C6: idempotent task creation and key derivation -/

theorem _IdempotencyStore.get_fst {α : Type} (s : _IdempotencyStore α) (key : String)
    (now : Rat) :
    (s.get key now).1 =
      (alookup (s.entries.filter (fun e => now < e.2.1)) key).map (fun e => e.2) := by
  unfold _IdempotencyStore.get _IdempotencyStore.purgeExpired
  dsimp only
  cases h : alookup (s.entries.filter (fun e => now < e.2.1)) key <;> simp [h]

theorem string_append_left_cancel (p a b : String) (h : a ≠ b) : p ++ a ≠ p ++ b := by
  intro hh
  apply h
  apply String.ext
  have := congrArg String.data hh
  rw [String.data_append, String.data_append] at this
  exact List.append_cancel_left this

/-- The entry stored by the first (cache-missing) create call, as seen by
later lookups. -/
theorem stored_entry_lookup (st0 : Store) (ck : String) (r : Rec) (t1 : Rat)
    (httl : st0.ttl_seconds = 24 * 60 * 60) :
    alookup ((st0.purgeExpired t1).store ck r t1).entries ck = some (t1 + 86400, r) := by
  unfold _IdempotencyStore.store _IdempotencyStore.purgeExpired
  dsimp only
  rw [ttl_cast _ httl]
  exact alookup_aset_self _ _ _

theorem stored_entry_get_hit (st0 : Store) (ck : String) (r : Rec) (t1 t2 : Rat)
    (httl : st0.ttl_seconds = 24 * 60 * 60) (hwin : t2 < t1 + 86400) :
    (((st0.purgeExpired t1).store ck r t1).get ck t2).1 = some r := by
  rw [_IdempotencyStore.get_fst]
  unfold _IdempotencyStore.store _IdempotencyStore.purgeExpired
  dsimp only
  rw [ttl_cast _ httl]
  rw [alookup_filter_aset_pos _ _ _ _ (by simpa using hwin)]
  rfl

theorem stored_entry_get_miss (st0 : Store) (ck ck2 : String) (r : Rec) (t1 t2 : Rat)
    (hne : ck2 ≠ ck) (hmiss2 : (st0.get ck2 t2).1 = none) :
    (((st0.purgeExpired t1).store ck r t1).get ck2 t2).1 = none := by
  rw [_IdempotencyStore.get_fst] at hmiss2 ⊢
  unfold _IdempotencyStore.store _IdempotencyStore.purgeExpired
  dsimp only
  rw [Option.map_eq_none'] at hmiss2
  rw [Option.map_eq_none']
  rw [alookup_filter_aset_ne _ _ _ _ hne]
  exact alookup_filter_filter_none _ _ _ _
    (alookup_filter_filter_none _ _ _ _ hmiss2)

/-- Claim C6: the idempotency cache key is the raw token, a colon, and the
lowercase hex SHA-256 of `"<user_story_id>:<subject>"`; two calls with the
same token but different subjects whose fingerprints hash differently get
different cache keys, and running the create handler twice with those two
subjects (both runs succeeding, both keys initially absent) triggers one
remote create call per run — two in total. -/
theorem C6_cache_key_derivation
    (env : TaigaEnv) (t1 t2 : Rat) (usid : Int) (s1 s2 : String) (k : String)
    (d1 d2 : Upd String) (a1 a2 : Upd Int) (u1 u2 : Upd StatusV)
    (g1 g2 : Upd (List String)) (e1 e2 : Upd String)
    (st0 : Store) (out1 out2 : Except PyErr Rec × Store × List Call) (r1 r2 : Rec)
    (hk : k ≠ "")
    (hdig : sha256Hex (strBytes (toString usid ++ ":" ++ s1)) ≠
      sha256Hex (strBytes (toString usid ++ ":" ++ s2)))
    (hmiss1 : (st0.get (_make_idempotency_cache_key k usid s1) t1).1 = none)
    (hmiss2 : (st0.get (_make_idempotency_cache_key k usid s2) t2).1 = none)
    (hrun1 : taiga_tasks_create env t1 usid s1 d1 a1 u1 g1 e1 (.given k) st0 [] = out1)
    (hok1 : out1.1 = .ok r1)
    (hrun2 : taiga_tasks_create env t2 usid s2 d2 a2 u2 g2 e2 (.given k) out1.2.1 [] = out2)
    (hok2 : out2.1 = .ok r2) :
    (∀ k0 u s, _make_idempotency_cache_key k0 u s =
      k0 ++ ":" ++ sha256Hex (strBytes (toString u ++ ":" ++ s))) ∧
    _make_idempotency_cache_key k usid s1 ≠ _make_idempotency_cache_key k usid s2 ∧
    (createTaskCalls out1.2.2).length = 1 ∧
    (createTaskCalls out2.2.2).length = 1 := by
  have hkey : ∀ k0 u s, _make_idempotency_cache_key k0 u s =
      k0 ++ ":" ++ sha256Hex (strBytes (toString u ++ ":" ++ s)) := fun _ _ _ => rfl
  have hne : _make_idempotency_cache_key k usid s1 ≠ _make_idempotency_cache_key k usid s2 := by
    rw [hkey, hkey]
    exact string_append_left_cancel (k ++ ":") _ _ hdig
  obtain ⟨story, pid, h0, hpr, hcase1⟩ :=
    tasks_create_inv env t1 usid s1 d1 a1 u1 g1 e1 k st0 out1 r1 hk hrun1 hok1
  rcases hcase1 with ⟨hhit, _⟩ | ⟨_, payload1, pre1, hpre1, hcr1, hout1⟩
  · rw [hmiss1] at hhit; cases hhit
  obtain ⟨story2, pid2, h02, hpr2, hcase2⟩ :=
    tasks_create_inv env t2 usid s2 d2 a2 u2 g2 e2 k out1.2.1 out2 r2 hk hrun2 hok2
  rcases hcase2 with ⟨hhit2, _⟩ | ⟨_, payload2, pre2, hpre2, hcr2, hout2⟩
  · rw [hout1] at hhit2
    dsimp only at hhit2
    rw [stored_entry_get_miss st0 _ _ r1 t1 t2
      (fun hh => hne hh.symm) hmiss2] at hhit2
    cases hhit2
  refine ⟨hkey, hne, ?_, ?_⟩
  · rw [hout1]
    dsimp only
    rw [createTaskCalls_append]
    rcases hpre1 with rfl | rfl <;> simp [createTaskCalls]
  · rw [hout2]
    dsimp only
    rw [createTaskCalls_append]
    rcases hpre2 with rfl | rfl <;> simp [createTaskCalls]

/-- Claim C5: running the cached task-create twice with the same token,
story id and subject, the second run within the first run TTL window and
the key initially absent: the first (successful) run performs exactly one
remote create call and stores the raw created record under the derived
cache key; the second run returns exactly that record from the cache,
performing only the story fetch and no create call. -/
theorem C5_idempotent_create
    (env : TaigaEnv) (t1 t2 : Rat) (usid : Int) (subj : String) (k : String)
    (d1 d2 : Upd String) (a1 a2 : Upd Int) (u1 u2 : Upd StatusV)
    (g1 g2 : Upd (List String)) (e1 e2 : Upd String)
    (st0 : Store) (out1 : Except PyErr Rec × Store × List Call) (r1 : Rec)
    (httl : st0.ttl_seconds = 24 * 60 * 60)
    (hk : k ≠ "")
    (hmiss : (st0.get (_make_idempotency_cache_key k usid subj) t1).1 = none)
    (hwin : t2 < t1 + 86400)
    (hrun1 : taiga_tasks_create env t1 usid subj d1 a1 u1 g1 e1 (.given k) st0 [] = out1)
    (hok1 : out1.1 = .ok r1) :
    (createTaskCalls out1.2.2).length = 1 ∧
    alookup out1.2.1.entries (_make_idempotency_cache_key k usid subj) =
      some (t1 + 86400, r1) ∧
    taiga_tasks_create env t2 usid subj d2 a2 u2 g2 e2 (.given k) out1.2.1 [] =
      (.ok r1, out1.2.1.purgeExpired t2, [Call.getUserStory usid]) := by
  obtain ⟨story, pid, h0, hpr, hcase1⟩ :=
    tasks_create_inv env t1 usid subj d1 a1 u1 g1 e1 k st0 out1 r1 hk hrun1 hok1
  rcases hcase1 with ⟨hhit, _⟩ | ⟨_, payload1, pre1, hpre1, hcr1, hout1⟩
  · rw [hmiss] at hhit; cases hhit
  refine ⟨?_, ?_, ?_⟩
  · rw [hout1]
    dsimp only
    rw [createTaskCalls_append]
    rcases hpre1 with rfl | rfl <;> simp [createTaskCalls]
  · rw [hout1]
    dsimp only
    exact stored_entry_lookup st0 _ r1 t1 httl
  · rw [hout1]
    dsimp only
    exact tasks_create_cache_hit env t2 usid subj d2 a2 u2 g2 e2 k _ story pid r1
      h0 hpr hk (stored_entry_get_hit st0 _ r1 t1 t2 httl hwin)

/-- Witness for C5 at the fixture environment: two concrete runs with the
same token, story id and subject. -/
theorem C5_idempotent_create_witness :
    (createTaskCalls ((taiga_tasks_create envK 0 5 "Stand" .unset .unset .unset .unset
      .unset (.given "abc123") stT []).2.2)).length = 1 ∧
    taiga_tasks_create envK 1 5 "Stand" .unset .unset .unset .unset .unset
      (.given "abc123")
      ((taiga_tasks_create envK 0 5 "Stand" .unset .unset .unset .unset .unset
        (.given "abc123") stT []).2.1) [] =
      (.ok [("id", Value.vInt 99)],
        ((taiga_tasks_create envK 0 5 "Stand" .unset .unset .unset .unset .unset
          (.given "abc123") stT []).2.1).purgeExpired 1, [Call.getUserStory 5]) := by
  have h := C5_idempotent_create envK 0 1 5 "Stand" "abc123"
    .unset .unset .unset .unset .unset .unset .unset .unset .unset .unset
    stT _ [("id", Value.vInt 99)] rfl (by decide) rfl (by norm_num) rfl rfl
  exact ⟨h.1, h.2.2⟩

set_option maxHeartbeats 4000000 in
set_option maxRecDepth 8000 in
/-- Witness for C6 at the fixture environment: same token, two different
subjects, two concrete runs, two create calls. -/
theorem C6_cache_key_derivation_witness :
    _make_idempotency_cache_key "abc123" 5 "A" ≠ _make_idempotency_cache_key "abc123" 5 "B" ∧
    (createTaskCalls ((taiga_tasks_create envK 0 5 "A" .unset .unset .unset .unset
      .unset (.given "abc123") stT []).2.2)).length = 1 ∧
    (createTaskCalls ((taiga_tasks_create envK 1 5 "B" .unset .unset .unset .unset
      .unset (.given "abc123")
      ((taiga_tasks_create envK 0 5 "A" .unset .unset .unset .unset .unset
        (.given "abc123") stT []).2.1) []).2.2)).length = 1 := by
  have hE : ((0 : Rat) + (((24 * 60 * 60 : Int)) : Rat)) = (((86400 : Int)) : Rat) := by
    norm_num
  have hst : (taiga_tasks_create envK 0 5 "A" .unset .unset .unset .unset .unset
      (.given "abc123") stT []).2.1 =
      { ttl_seconds := 24 * 60 * 60,
        entries := [(_make_idempotency_cache_key "abc123" 5 "A",
          ((((86400 : Int)) : Rat), [("id", Value.vInt 99)]))] } := by
    rw [show (taiga_tasks_create envK 0 5 "A" .unset .unset .unset .unset .unset
      (.given "abc123") stT []).2.1 =
      { ttl_seconds := 24 * 60 * 60,
        entries := [(_make_idempotency_cache_key "abc123" 5 "A",
          (((0 : Rat) + (((24 * 60 * 60 : Int)) : Rat)), [("id", Value.vInt 99)]))] } from rfl,
      hE]
  have hrun2 : taiga_tasks_create envK 1 5 "B" .unset .unset .unset .unset .unset
      (.given "abc123")
      ((taiga_tasks_create envK 0 5 "A" .unset .unset .unset .unset .unset
        (.given "abc123") stT []).2.1) [] =
      taiga_tasks_create envK 1 5 "B" .unset .unset .unset .unset .unset
      (.given "abc123")
      { ttl_seconds := 24 * 60 * 60,
        entries := [(_make_idempotency_cache_key "abc123" 5 "A",
          ((((86400 : Int)) : Rat), [("id", Value.vInt 99)]))] } [] := by
    rw [hst]
  have h := C6_cache_key_derivation envK 0 1 5 "A" "B" "abc123"
    .unset .unset .unset .unset .unset .unset .unset .unset .unset .unset
    stT _ _ [("id", Value.vInt 99)] [("id", Value.vInt 99)]
    (by decide) (by decide) rfl rfl rfl rfl hrun2 rfl
  refine ⟨h.2.1, h.2.2.1, ?_⟩
  rw [hrun2]
  exact h.2.2.2

/-- Claim C1: when the submit step of a story or task update fails with a
409 conflict, the handler performs exactly one follow-up read of the
current record, raises a `ValueError` whose message carries the entity id
and the version obtained from that follow-up read, and submits nothing
further; a submit failure with any other status code propagates
unchanged.  The update endpoints are assumed to fail uniformly with status
`cS` (stories) and `cU` (tasks), and the follow-up reads to return
`latestS`/`latestU`. -/
theorem C1_conflict_rewrite
    (envS envU : TaigaEnv) (sid tid : Int)
    (s1 s2 : Upd String) (s3 : Upd StatusV) (s4 : Upd (List String))
    (s5 s6 s7 : Upd Int) (s8 : Upd (List (String × Value))) (s9 : Upd Int)
    (u1 u2 : Upd String) (u3 : Upd Int) (u4 : Upd StatusV) (u5 : Upd (List String))
    (u6 : Upd String) (u7 : Upd Int)
    (stS stU : Store) (outS outU : Except PyErr Rec × Store × List Call)
    (iS iU : Int) (pS pU : Rec)
    (cS cU : Option Int) (mS mU : String) (latestS latestU : Rec)
    (hrunS : taiga_stories_update envS sid s1 s2 s3 s4 s5 s6 s7 s8 s9 stS [] = outS)
    (hmemS : (iS, pS) ∈ updateStoryCalls outS.2.2)
    (hupdS : ∀ n q, envS.updateUserStory n sid q = .error (.taigaAPIError cS mS))
    (hlatS : ∀ n, 1 ≤ n → envS.getUserStory n sid = .ok latestS)
    (hrunU : taiga_tasks_update envU tid u1 u2 u3 u4 u5 u6 u7 stU [] = outU)
    (hmemU : (iU, pU) ∈ updateTaskCalls outU.2.2)
    (hupdU : ∀ n q, envU.updateTask n tid q = .error (.taigaAPIError cU mU))
    (hlatU : ∀ n, 1 ≤ n → envU.getTask n tid = .ok latestU) :
    (∀ lv, storyConflictMsg sid lv =
      "Conflict updating user story " ++ toString sid ++ ": latest version is " ++
        pyStrOpt lv) ∧
    (∀ lv, taskConflictMsg tid lv =
      "Conflict updating task " ++ toString tid ++ ": latest version is " ++ pyStrOpt lv) ∧
    (cS = some 409 → ∃ pre,
      updateStoryCalls outS.2.2 = [(sid, pS)] ∧
      outS.2.2 = pre ++ [Call.updateUserStory sid pS] ++ [Call.getUserStory sid] ∧
      outS.1 = .error (.valueError (storyConflictMsg sid (alookup latestS "version")))) ∧
    (cS ≠ some 409 → ∃ pre,
      updateStoryCalls outS.2.2 = [(sid, pS)] ∧
      outS.2.2 = pre ++ [Call.updateUserStory sid pS] ∧
      outS.1 = .error (.taigaAPIError cS mS)) ∧
    (cU = some 409 → ∃ pre,
      updateTaskCalls outU.2.2 = [(tid, pU)] ∧
      outU.2.2 = pre ++ [Call.updateTask tid pU] ++ [Call.getTask tid] ∧
      outU.1 = .error (.valueError (taskConflictMsg tid (alookup latestU "version")))) ∧
    (cU ≠ some 409 → ∃ pre,
      updateTaskCalls outU.2.2 = [(tid, pU)] ∧
      outU.2.2 = pre ++ [Call.updateTask tid pU] ∧
      outU.1 = .error (.taigaAPIError cU mU)) := by
  obtain ⟨hiS, honeS, ex, q, n, pre, post, h0, hp2, hv1, hv2, hu1, hu2, hu3, hpreS,
    htrS, hokS, h409S, hothS, hverrS⟩ :=
    stories_update_submit_inv envS sid s1 s2 s3 s4 s5 s6 s7 s8 s9 stS outS iS pS hrunS hmemS
  obtain ⟨hiU, honeU, ext, bt, qt, nt, pret, postt, h0t, hp2t, hv1t, hv2t, hd1, hd2, ht1,
    ht2, ht3, hpreU, htrU, hokU, h409U, hothU, hverrU⟩ :=
    tasks_update_submit_inv envU tid u1 u2 u3 u4 u5 u6 u7 stU outU iU pU hrunU hmemU
  have hpreS1 : 1 ≤ pre.length := by
    rcases hpreS with rfl | ⟨pid, rfl⟩ <;> simp
  have hpreU1 : 1 ≤ pret.length := by
    rcases hpreU with rfl | ⟨pid, rfl⟩ <;> simp
  refine ⟨fun lv => rfl, fun lv => rfl, ?_, ?_, ?_, ?_⟩
  · intro hc
    subst hc
    obtain ⟨hpost, hcase⟩ := h409S mS (hupdS pre.length pS)
    rcases hcase with ⟨latest, hl, hout⟩ | ⟨e, he, _⟩
    · have h2 := hlatS (pre.length + 1) (by omega)
      rw [hl] at h2
      injection h2 with h3
      subst h3
      exact ⟨pre, honeS, by rw [htrS, hpost], hout⟩
    · have h2 := hlatS (pre.length + 1) (by omega)
      rw [he] at h2
      exact Except.noConfusion h2
  · intro hc
    obtain ⟨hpost, hout⟩ := hothS cS mS (hupdS pre.length pS) hc
    exact ⟨pre, honeS, by rw [htrS, hpost, List.append_nil], hout⟩
  · intro hc
    subst hc
    obtain ⟨hpost, hcase⟩ := h409U mU (hupdU pret.length pU)
    rcases hcase with ⟨latest, hl, hout⟩ | ⟨e, he, _⟩
    · have h2 := hlatU (pret.length + 1) (by omega)
      rw [hl] at h2
      injection h2 with h3
      subst h3
      exact ⟨pret, honeU, by rw [htrU, hpost], hout⟩
    · have h2 := hlatU (pret.length + 1) (by omega)
      rw [he] at h2
      exact Except.noConfusion h2
  · intro hc
    obtain ⟨hpost, hout⟩ := hothU cU mU (hupdU pret.length pU) hc
    exact ⟨pret, honeU, by rw [htrU, hpost, List.append_nil], hout⟩

/-- Witness for C1 at the always-conflicting fixture environment: both a
story and a task update end in the rewritten conflict `ValueError`. -/
theorem C1_conflict_rewrite_witness :
    (taiga_stories_update envConflict 5 (.given "S") .unset .unset .unset .unset .unset
      .unset .unset .unset stT []).1 =
      .error (.valueError (storyConflictMsg 5 (some (Value.vInt 2)))) ∧
    (taiga_tasks_update envConflict 7 (.given "T") .unset .unset .unset .unset .unset
      .unset stT []).1 =
      .error (.valueError (taskConflictMsg 7 (some (Value.vInt 2)))) := by
  have h := C1_conflict_rewrite envConflict envConflict 5 7
    (.given "S") .unset .unset .unset .unset .unset .unset .unset .unset
    (.given "T") .unset .unset .unset .unset .unset .unset
    stT stT _ _ 5 7
    [("subject", Value.vStr "S"), ("version", Value.vInt 2)]
    [("subject", Value.vStr "T"), ("version", Value.vInt 2)]
    (some 409) (some 409) "Conflict" "Conflict"
    [("id", Value.vInt 5), ("project", Value.vInt 3), ("version", Value.vInt 2)]
    [("id", Value.vInt 7), ("project", Value.vInt 3), ("version", Value.vInt 2)]
    rfl
    (by
      have hx : updateStoryCalls ((taiga_stories_update envConflict 5 (.given "S") .unset
        .unset .unset .unset .unset .unset .unset .unset stT []).2.2) =
        [(5, [("subject", Value.vStr "S"), ("version", Value.vInt 2)])] := rfl
      rw [hx]
      exact List.mem_singleton.mpr rfl)
    (fun _ _ => rfl) (fun _ _ => rfl)
    rfl
    (by
      have hx : updateTaskCalls ((taiga_tasks_update envConflict 7 (.given "T") .unset
        .unset .unset .unset .unset .unset stT []).2.2) =
        [(7, [("subject", Value.vStr "T"), ("version", Value.vInt 2)])] := rfl
      rw [hx]
      exact List.mem_singleton.mpr rfl)
    (fun _ _ => rfl) (fun _ _ => rfl)
  obtain ⟨-, -, hS, -, hU, -⟩ := h
  obtain ⟨pre, -, -, houtS⟩ := hS rfl
  obtain ⟨pret, -, -, houtU⟩ := hU rfl
  exact ⟨houtS, houtU⟩

/-- Claim C2: every story or task update that reaches the submit step
submits exactly one payload, and that payload carries a `version` field:
the caller's explicit version when one was given, otherwise the version
resolved from the record fetched by the pre-update read
(`storyVersionValue`/`taskVersionValue`, which return exactly the integer
`version` field of that record). -/
theorem C2_version_selection
    (envS envU : TaigaEnv) (sid tid : Int)
    (s1 s2 : Upd String) (s3 : Upd StatusV) (s4 : Upd (List String))
    (s5 s6 s7 : Upd Int) (s8 : Upd (List (String × Value))) (s9 : Upd Int)
    (u1 u2 : Upd String) (u3 : Upd Int) (u4 : Upd StatusV) (u5 : Upd (List String))
    (u6 : Upd String) (u7 : Upd Int)
    (stS stU : Store) (outS outU : Except PyErr Rec × Store × List Call)
    (iS iU : Int) (pS pU : Rec)
    (hrunS : taiga_stories_update envS sid s1 s2 s3 s4 s5 s6 s7 s8 s9 stS [] = outS)
    (hmemS : (iS, pS) ∈ updateStoryCalls outS.2.2)
    (hrunU : taiga_tasks_update envU tid u1 u2 u3 u4 u5 u6 u7 stU [] = outU)
    (hmemU : (iU, pU) ∈ updateTaskCalls outU.2.2) :
    updateStoryCalls outS.2.2 = [(sid, pS)] ∧
    updateTaskCalls outU.2.2 = [(tid, pU)] ∧
    (∃ ex n, envS.getUserStory 0 sid = .ok ex ∧
      alookup pS "version" = some (.vInt n) ∧
      (∀ v, s9 = .given v → n = v) ∧
      ((s9 = .unset ∨ s9 = .null) → storyVersionValue ex = .ok n)) ∧
    (∃ ex n, envU.getTask 0 tid = .ok ex ∧
      alookup pU "version" = some (.vInt n) ∧
      (∀ v, u7 = .given v → n = v) ∧
      ((u7 = .unset ∨ u7 = .null) → taskVersionValue ex = .ok n)) ∧
    (∀ r m, alookup r "version" = some (Value.vInt m) → storyVersionValue r = .ok m) ∧
    (∀ r m, alookup r "version" = some (Value.vInt m) → taskVersionValue r = .ok m) := by
  obtain ⟨hiS, honeS, ex, q, n, pre, post, h0, hp2, hv1, hv2, -⟩ :=
    stories_update_submit_inv envS sid s1 s2 s3 s4 s5 s6 s7 s8 s9 stS outS iS pS hrunS hmemS
  obtain ⟨hiU, honeU, ext, bt, qt, nt, pret, postt, h0t, hp2t, hv1t, hv2t, -⟩ :=
    tasks_update_submit_inv envU tid u1 u2 u3 u4 u5 u6 u7 stU outU iU pU hrunU hmemU
  refine ⟨honeS, honeU, ⟨ex, n, h0, ?_, hv1, hv2⟩, ⟨ext, nt, h0t, ?_, hv1t, hv2t⟩, ?_, ?_⟩
  · rw [hp2]
    exact alookup_aset_self q "version" (.vInt n)
  · rw [hp2t]
    exact alookup_aset_self qt "version" (.vInt nt)
  · intro r m h
    unfold storyVersionValue
    rw [h]
    rfl
  · intro r m h
    unfold taskVersionValue
    rw [h]
    rfl

/-- Witness for C2: a story update with no explicit version submits the
fetched version 2; a task update with explicit version 9 submits 9. -/
theorem C2_version_selection_witness :
    updateStoryCalls ((taiga_stories_update envT 5 (.given "S") .unset .unset .unset .unset
      .unset .unset .unset .unset stT []).2.2) =
      [(5, [("subject", Value.vStr "S"), ("version", Value.vInt 2)])] ∧
    updateTaskCalls ((taiga_tasks_update envT 7 (.given "T") .unset .unset .unset .unset
      .unset (.given 9) stT []).2.2) =
      [(7, [("subject", Value.vStr "T"), ("version", Value.vInt 9)])] ∧
    alookup [("subject", Value.vStr "S"), ("version", Value.vInt 2)] "version" =
      some (Value.vInt 2) ∧
    alookup [("subject", Value.vStr "T"), ("version", Value.vInt 9)] "version" =
      some (Value.vInt 9) := by
  have h := C2_version_selection envT envT 5 7
    (.given "S") .unset .unset .unset .unset .unset .unset .unset .unset
    (.given "T") .unset .unset .unset .unset .unset (.given 9)
    stT stT _ _ 5 7
    [("subject", Value.vStr "S"), ("version", Value.vInt 2)]
    [("subject", Value.vStr "T"), ("version", Value.vInt 9)]
    rfl
    (by
      have hx : updateStoryCalls ((taiga_stories_update envT 5 (.given "S") .unset
        .unset .unset .unset .unset .unset .unset .unset stT []).2.2) =
        [(5, [("subject", Value.vStr "S"), ("version", Value.vInt 2)])] := rfl
      rw [hx]
      exact List.mem_singleton.mpr rfl)
    rfl
    (by
      have hx : updateTaskCalls ((taiga_tasks_update envT 7 (.given "T") .unset
        .unset .unset .unset .unset (.given 9) stT []).2.2) =
        [(7, [("subject", Value.vStr "T"), ("version", Value.vInt 9)])] := rfl
      rw [hx]
      exact List.mem_singleton.mpr rfl)
  obtain ⟨h1, h2, ⟨ex, n, h0, hvp, hg, hu⟩, ⟨ext, nt, h0t, hvpt, hgt, hut⟩, -, -⟩ := h
  have hex : (Except.ok [("id", Value.vInt 5), ("project", Value.vInt 3),
      ("version", Value.vInt 2)] : Except PyErr Rec) = .ok ex := h0
  injection hex with hex2
  subst hex2
  have hn : (Except.ok (2 : Int) : Except PyErr Int) = .ok n := hu (Or.inl rfl)
  injection hn with hn2
  subst hn2
  have hnt : nt = 9 := hgt 9 rfl
  subst hnt
  exact ⟨h1, h2, hvp, hvpt⟩

/-- Counterexample to claim C3 as stated: a story update with `tags`
explicitly `None` does not send `tags` as null — the submitted payload
carries an empty list instead (`[] if tags is None else tags`). -/
theorem C3_counterexample :
    updateStoryCalls ((taiga_stories_update envT 5 .unset .unset .unset .null .unset .unset
      .unset .unset .unset stT []).2.2) =
      [(5, [("tags", Value.vList []), ("version", Value.vInt 2)])] ∧
    alookup [("tags", Value.vList []), ("version", Value.vInt 2)] "tags" =
      some (Value.vList []) ∧
    some (Value.vList []) ≠ some Value.vNull := by
  refine ⟨rfl, rfl, by simp⟩

/-- Claim C3 (amended): in every submitted story or task update payload,
each non-UNSET caller field appears under its payload key with its given
value — explicit `None` is sent as null for `subject`, `description`,
`assigned_to`, `epic`, `milestone` and `custom_attributes` — and every
UNSET field is absent; the exceptions to verbatim inclusion are `tags`,
where explicit `None` is sent as an empty list, `due_date`, which is
normalized through ISO-date validation (explicit `None` still sent as
null), and `status`, which is resolved to a status id. -/
theorem C3_payload_fields
    (envS envU : TaigaEnv) (sid tid : Int)
    (s1 s2 : Upd String) (s3 : Upd StatusV) (s4 : Upd (List String))
    (s5 s6 s7 : Upd Int) (s8 : Upd (List (String × Value))) (s9 : Upd Int)
    (u1 u2 : Upd String) (u3 : Upd Int) (u4 : Upd StatusV) (u5 : Upd (List String))
    (u6 : Upd String) (u7 : Upd Int)
    (stS stU : Store) (outS outU : Except PyErr Rec × Store × List Call)
    (iS iU : Int) (pS pU : Rec)
    (hrunS : taiga_stories_update envS sid s1 s2 s3 s4 s5 s6 s7 s8 s9 stS [] = outS)
    (hmemS : (iS, pS) ∈ updateStoryCalls outS.2.2)
    (hrunU : taiga_tasks_update envU tid u1 u2 u3 u4 u5 u6 u7 stU [] = outU)
    (hmemU : (iU, pU) ∈ updateTaskCalls outU.2.2) :
    (alookup pS "subject" = Upd.toVal Value.vStr s1 ∧
      alookup pS "description" = Upd.toVal Value.vStr s2 ∧
      alookup pS "tags" = tagsVal s4 ∧
      alookup pS "assigned_to" = Upd.toVal Value.vInt s5 ∧
      alookup pS "epic" = Upd.toVal Value.vInt s6 ∧
      alookup pS "milestone" = Upd.toVal Value.vInt s7 ∧
      alookup pS "custom_attributes" = Upd.toVal Value.vDict s8 ∧
      (s3 = .unset → alookup pS "status" = none) ∧
      (s3 = .null → alookup pS "status" = some Value.vNull) ∧
      (∀ sv, s3 = .given sv → ∃ w, alookup pS "status" = some w)) ∧
    (alookup pU "subject" = Upd.toVal Value.vStr u1 ∧
      alookup pU "description" = Upd.toVal Value.vStr u2 ∧
      alookup pU "assigned_to" = Upd.toVal Value.vInt u3 ∧
      alookup pU "tags" = tagsVal u5 ∧
      (u6 = .unset → alookup pU "due_date" = none) ∧
      (u6 ≠ .unset → ∃ v, dueDateVal u6 = .ok v ∧ alookup pU "due_date" = some v) ∧
      (u4 = .unset → alookup pU "status" = none) ∧
      (u4 = .null → alookup pU "status" = some Value.vNull) ∧
      (∀ sv, u4 = .given sv → ∃ w, alookup pU "status" = some w)) ∧
    (∀ a, Upd.toVal Value.vStr (Upd.given a) = some (Value.vStr a)) ∧
    Upd.toVal Value.vStr (Upd.null : Upd String) = some Value.vNull ∧
    Upd.toVal Value.vStr (Upd.unset : Upd String) = none ∧
    tagsVal Upd.null = some (Value.vList []) ∧
    dueDateVal Upd.null = .ok Value.vNull := by
  obtain ⟨hiS, honeS, ex, q, n, pre, post, h0, hp2, hv1, hv2, hu1, hu2, hu3, -⟩ :=
    stories_update_submit_inv envS sid s1 s2 s3 s4 s5 s6 s7 s8 s9 stS outS iS pS hrunS hmemS
  obtain ⟨hiU, honeU, ext, bt, qt, nt, pret, postt, h0t, hp2t, hv1t, hv2t, hd1, hd2, ht1,
    ht2, ht3, -⟩ :=
    tasks_update_submit_inv envU tid u1 u2 u3 u4 u5 u6 u7 stU outU iU pU hrunU hmemU
  have hvq : ∀ k, k ≠ "version" → alookup pS k = alookup q k := by
    intro k hk
    rw [hp2, alookup_aset_ne q "version" (.vInt n) k hk]
  have hqb : ∀ k, k ≠ "status" →
      alookup q k = alookup (storyFieldPayload s1 s2 s4 s5 s6 s7 s8) k := by
    intro k hk
    cases hs : s3 with
    | unset => rw [hu1 hs]
    | null => rw [hu2 hs, alookup_aset_ne _ _ _ _ hk]
    | given sv =>
      obtain ⟨w, hw⟩ := hu3 sv hs
      rw [hw, alookup_aset_ne _ _ _ _ hk]
  have hfS : ∀ k, k ≠ "version" → k ≠ "status" →
      alookup pS k = alookup (storyFieldPayload s1 s2 s4 s5 s6 s7 s8) k := by
    intro k h1 h2
    rw [hvq k h1, hqb k h2]
  have hvqt : ∀ k, k ≠ "version" → alookup pU k = alookup qt k := by
    intro k hk
    rw [hp2t, alookup_aset_ne qt "version" (.vInt nt) k hk]
  have hqbt : ∀ k, k ≠ "status" → alookup qt k = alookup bt k := by
    intro k hk
    cases hs : u4 with
    | unset => rw [ht1 hs]
    | null => rw [ht2 hs, alookup_aset_ne _ _ _ _ hk]
    | given sv =>
      obtain ⟨w, hw⟩ := ht3 sv hs
      rw [hw, alookup_aset_ne _ _ _ _ hk]
  have hfT : ∀ k, k ≠ "version" → k ≠ "status" → k ≠ "due_date" →
      alookup pU k = alookup (taskFieldPayload u1 u2 u3 u5) k := by
    intro k h1 h2 h3
    rw [hvqt k h1, hqbt k h2]
    cases hd : u6 with
    | unset => rw [hd1 hd]
    | null =>
      obtain ⟨v, hv, hb⟩ := hd2 (by simp [hd])
      rw [hb, alookup_aset_ne _ _ _ _ h3]
    | given d =>
      obtain ⟨v, hv, hb⟩ := hd2 (by simp [hd])
      rw [hb, alookup_aset_ne _ _ _ _ h3]
  refine ⟨⟨?_, ?_, ?_, ?_, ?_, ?_, ?_, ?_, ?_, ?_⟩,
    ⟨?_, ?_, ?_, ?_, ?_, ?_, ?_, ?_, ?_⟩, fun a => rfl, rfl, rfl, rfl, rfl⟩
  · rw [hfS "subject" (by decide) (by decide), storyFieldPayload_lookup]
    simp
  · rw [hfS "description" (by decide) (by decide), storyFieldPayload_lookup]
    simp
  · rw [hfS "tags" (by decide) (by decide), storyFieldPayload_lookup]
    simp
  · rw [hfS "assigned_to" (by decide) (by decide), storyFieldPayload_lookup]
    simp
  · rw [hfS "epic" (by decide) (by decide), storyFieldPayload_lookup]
    simp
  · rw [hfS "milestone" (by decide) (by decide), storyFieldPayload_lookup]
    simp
  · rw [hfS "custom_attributes" (by decide) (by decide), storyFieldPayload_lookup]
    simp
  · intro h
    rw [hvq "status" (by decide), hu1 h, storyFieldPayload_lookup]
    simp
  · intro h
    rw [hvq "status" (by decide), hu2 h]
    exact alookup_aset_self _ _ _
  · intro sv h
    obtain ⟨w, hw⟩ := hu3 sv h
    refine ⟨w, ?_⟩
    rw [hvq "status" (by decide), hw]
    exact alookup_aset_self _ _ _
  · rw [hfT "subject" (by decide) (by decide) (by decide), taskFieldPayload_lookup]
    simp
  · rw [hfT "description" (by decide) (by decide) (by decide), taskFieldPayload_lookup]
    simp
  · rw [hfT "assigned_to" (by decide) (by decide) (by decide), taskFieldPayload_lookup]
    simp
  · rw [hfT "tags" (by decide) (by decide) (by decide), taskFieldPayload_lookup]
    simp
  · intro h
    rw [hvqt "due_date" (by decide), hqbt "due_date" (by decide), hd1 h,
      taskFieldPayload_lookup]
    simp
  · intro h
    obtain ⟨v, hv, hb⟩ := hd2 h
    refine ⟨v, hv, ?_⟩
    rw [hvqt "due_date" (by decide), hqbt "due_date" (by decide), hb]
    exact alookup_aset_self _ _ _
  · intro h
    rw [hvqt "status" (by decide), ht1 h]
    cases hd : u6 with
    | unset =>
      rw [hd1 hd, taskFieldPayload_lookup]
      simp
    | null =>
      obtain ⟨v, hv, hb⟩ := hd2 (by simp [hd])
      rw [hb, alookup_aset_ne _ _ _ _ (by decide), taskFieldPayload_lookup]
      simp
    | given d =>
      obtain ⟨v, hv, hb⟩ := hd2 (by simp [hd])
      rw [hb, alookup_aset_ne _ _ _ _ (by decide), taskFieldPayload_lookup]
      simp
  · intro h
    rw [hvqt "status" (by decide), ht2 h]
    exact alookup_aset_self _ _ _
  · intro sv h
    obtain ⟨w, hw⟩ := ht3 sv h
    refine ⟨w, ?_⟩
    rw [hvqt "status" (by decide), hw]
    exact alookup_aset_self _ _ _

/-- Witness for C3 (amended): explicit-null description sent as null,
explicit-null tags sent as an empty list, UNSET milestone absent, and a
given due date sent verbatim after validation. -/
theorem C3_payload_fields_witness :
    alookup [("subject", Value.vStr "S"), ("description", Value.vNull),
      ("tags", Value.vList []), ("version", Value.vInt 2)] "description" =
      some Value.vNull ∧
    alookup [("subject", Value.vStr "S"), ("description", Value.vNull),
      ("tags", Value.vList []), ("version", Value.vInt 2)] "tags" =
      some (Value.vList []) ∧
    alookup [("subject", Value.vStr "S"), ("description", Value.vNull),
      ("tags", Value.vList []), ("version", Value.vInt 2)] "milestone" = none ∧
    alookup [("subject", Value.vStr "T"), ("due_date", Value.vStr "2025-11-21"),
      ("version", Value.vInt 2)] "due_date" = some (Value.vStr "2025-11-21") := by
  have h := C3_payload_fields envT envT 5 7
    (.given "S") .null .unset .null .unset .unset .unset .unset .unset
    (.given "T") .unset .unset .unset .unset (.given "2025-11-21") .unset
    stT stT _ _ 5 7
    [("subject", Value.vStr "S"), ("description", Value.vNull),
      ("tags", Value.vList []), ("version", Value.vInt 2)]
    [("subject", Value.vStr "T"), ("due_date", Value.vStr "2025-11-21"),
      ("version", Value.vInt 2)]
    rfl
    (by
      have hx : updateStoryCalls ((taiga_stories_update envT 5 (.given "S") .null .unset
        .null .unset .unset .unset .unset .unset stT []).2.2) =
        [(5, [("subject", Value.vStr "S"), ("description", Value.vNull),
          ("tags", Value.vList []), ("version", Value.vInt 2)])] := rfl
      rw [hx]
      exact List.mem_singleton.mpr rfl)
    rfl
    (by
      have hx : updateTaskCalls ((taiga_tasks_update envT 7 (.given "T") .unset .unset
        .unset .unset (.given "2025-11-21") .unset stT []).2.2) =
        [(7, [("subject", Value.vStr "T"), ("due_date", Value.vStr "2025-11-21"),
          ("version", Value.vInt 2)])] := rfl
      rw [hx]
      exact List.mem_singleton.mpr rfl)
  obtain ⟨⟨-, hdesc, htags, -, -, hmil, -, -, -, -⟩,
    ⟨-, -, -, -, -, hdue, -, -, -⟩, -⟩ := h
  obtain ⟨v, hv, hl⟩ := hdue (by simp)
  have hv2 : (Except.ok (Value.vStr "2025-11-21") : Except PyErr Value) = .ok v := hv
  injection hv2 with hv3
  subst hv3
  exact ⟨hdesc, htags, hmil, hl⟩

end TaigaMCP
